import Mathlib

/-!
Verification of the monopoly-online game server core (src/server/main.py)
against its natural-language specification.

The Python server is shallowly embedded: each dataclass becomes a Lean
structure, dict fields become association lists, Python `int` becomes `Int`,
Python `float` percentages become `ℚ` (with explicit rounding points), and
each handler becomes a pure function from game state to game state.
-/

set_option maxRecDepth 4000

namespace Monopoly

/-- Player dataclass from main.py (the `color` field carries no game logic
and is kept as an optional string). -/
structure Player where
  name : String
  cash : Int
  position : Nat
  inJail : Bool
  jailTurns : Int
  doublesCount : Int
  jailCards : Int
  color : Option String
  autoMortgage : Bool
  autoBuyHouses : Bool
deriving DecidableEq, Repr

/-- Default-constructed player (cash default 1500 as in the dataclass). -/
def defaultPlayer : Player :=
  { name := "", cash := 1500, position := 0, inJail := false, jailTurns := 0,
    doublesCount := 0, jailCards := 0, color := none,
    autoMortgage := false, autoBuyHouses := false }

/-- PropertyState dataclass from main.py. -/
structure PropertyState where
  pos : Nat
  owner : Option String
  houses : Nat
  hotel : Bool
  mortgaged : Bool
deriving DecidableEq, Repr

/-- Default PropertyState(pos=p): unowned, no buildings, unmortgaged. -/
def defaultProp (p : Nat) : PropertyState :=
  { pos := p, owner := none, houses := 0, hotel := false, mortgaged := false }

/-- A single outstanding-debt record: creditor (None means bank in the
source, which also writes the literal string bank) and amount. -/
structure DebtEntry where
  creditor : Option String
  amount : Int
deriving DecidableEq, Repr

/-- Recurring obligation record created from trade terms. -/
structure RecurringPayment where
  rid : String
  from_ : String
  to_ : String
  amount : Int
  turnsLeft : Int
deriving DecidableEq, Repr

/-- Property rental agreement record. -/
structure Rental where
  rid : String
  renter : String
  owner : String
  properties : List Nat
  percentage : Int
  turnsLeft : Int
  cashPaid : Int
  totalReceived : Int
  lastPayment : Int
  lastPaymentTurn : Nat
deriving DecidableEq, Repr

/-- Per-owner stock record (percent-of-pool model; holdings map investors to
percents in [0,1], stored as exact rationals). -/
structure Stock where
  allowInvesting : Bool
  enforceMinBuy : Bool
  minBuy : Int
  enforceMinPool : Bool
  enforceMinPoolTotal : Bool
  enforceMinPoolOwner : Bool
  minPoolTotal : Int
  minPoolOwner : Int
  totalShares : ℚ
  holdings : List (String × ℚ)
  history : List (Nat × ℚ)
  lastHistoryTurn : Option Nat
deriving DecidableEq, Repr

/-- Default stock record created by stocksEnsure. -/
def defaultStock : Stock :=
  { allowInvesting := false, enforceMinBuy := false, minBuy := 0,
    enforceMinPool := false, enforceMinPoolTotal := false,
    enforceMinPoolOwner := false, minPoolTotal := 0, minPoolOwner := 0,
    totalShares := 0, holdings := [], history := [], lastHistoryTurn := none }

/-- Per-owner bond settings. -/
structure BondSettings where
  allowBonds : Bool
  ratePercent : ℚ
  periodTurns : Int
deriving DecidableEq, Repr

/-- Bond investment entry. -/
structure BondInvestment where
  owner : String
  investor : String
  principal : Int
deriving DecidableEq, Repr

/-- One side of a trade offer. -/
structure TradeSide where
  cash : Int
  properties : List Nat
  jailCard : Bool
deriving DecidableEq, Repr

/-- Recurring-payment term attached to a trade offer. -/
structure PaymentTerm where
  from_ : String
  to_ : String
  amount : Int
  turns : Int
deriving DecidableEq, Repr

/-- Rental term attached to a trade offer; direction is the give or receive
string relative to the offer maker. -/
structure RentalTerm where
  properties : List Nat
  percentage : Int
  turns : Int
  direction : String
deriving DecidableEq, Repr

/-- A pending trade offer. -/
structure TradeOffer where
  tid : String
  from_ : String
  to_ : String
  give : TradeSide
  receive : TradeSide
  payments : List PaymentTerm
  rentals : List RentalTerm
deriving DecidableEq, Repr

/-- The last_action dict is summarized by its type tag plus the reasons
list used by denial payloads. -/
structure LastAction where
  typ : String
  reasons : List String
deriving DecidableEq, Repr

/-- Game-over summary. -/
structure GameOver where
  winner : Option String
  turns : Nat
  mostPos : Option Nat
  mostCount : Int
deriving DecidableEq, Repr

/-- Game dataclass from main.py, restricted to the fields the verified
handlers touch.  Python dicts become association lists; the log keeps only
each entry's type tag. -/
structure Game where
  players : List Player
  currentTurn : Nat
  properties : List (Nat × PropertyState)
  lastAction : Option LastAction
  log : List String
  rollsLeft : Int
  pendingTrades : List TradeOffer
  rolledThisTurn : Bool
  recurring : List RecurringPayment
  round : Nat
  landCounts : List (Nat × Nat)
  turns : Nat
  gameOver : Option GameOver
  stocks : List (String × Stock)
  propertyRentals : List Rental
  recentTrades : List String
  bonds : List (String × BondSettings)
  bondInvestments : List BondInvestment
  turnCounts : List (String × Nat)
  debts : List (String × List DebtEntry)
deriving DecidableEq, Repr

/-- Association list update: replace the first binding of the key or append
a new one (semantics of a Python dict item assignment). -/
def assocSet {α β : Type} [DecidableEq α] : List (α × β) → α → β → List (α × β)
  | [], k, v => [(k, v)]
  | (k', v') :: rest, k, v =>
      if k' = k then (k, v) :: rest else (k', v') :: assocSet rest k v

/-- Association list lookup (Python dict .get). -/
def assocGet {α β : Type} [DecidableEq α] : List (α × β) → α → Option β
  | [], _ => none
  | (k', v') :: rest, k => if k' = k then some v' else assocGet rest k

theorem assocGet_assocSet_same {α β : Type} [DecidableEq α]
    (l : List (α × β)) (k : α) (v : β) : assocGet (assocSet l k v) k = some v := by
  induction l with
  | nil => simp [assocSet, assocGet]
  | cons hd tl ih =>
      obtain ⟨k', v'⟩ := hd
      by_cases h : k' = k <;> simp [assocSet, assocGet, h, ih]

theorem assocGet_assocSet_other {α β : Type} [DecidableEq α]
    (l : List (α × β)) (k k' : α) (v : β) (h : k' ≠ k) :
    assocGet (assocSet l k v) k' = assocGet l k' := by
  have hne : k ≠ k' := fun hh => h hh.symm
  induction l with
  | nil => simp [assocSet, assocGet, hne]
  | cons hd tl ih =>
      obtain ⟨k0, v0⟩ := hd
      by_cases h0 : k0 = k
      · subst h0
        simp [assocSet, assocGet, hne]
      · simp only [assocSet, if_neg h0, assocGet]
        by_cases h1 : k0 = k' <;> simp [h1, ih]

/-- Python `_find_player`: first player with the given name. -/
def findPlayer (g : Game) (name : String) : Option Player :=
  g.players.find? (fun p => p.name = name)

/-- Cash of the named player, 0 when absent (`_player_cash`). -/
def playerCash (g : Game) (name : String) : Int :=
  match findPlayer g name with
  | some p => p.cash
  | none => 0

/-- Apply an update to every player whose name matches (player names are
unique per lobby, so this models in-place mutation of the found object). -/
def updatePlayer (g : Game) (name : String) (f : Player → Player) : Game :=
  { g with players := g.players.map (fun p => if p.name = name then f p else p) }

/-- Credit a player's cash if a player with that name exists
(models `cred_p = _find_player(...); if cred_p: cred_p.cash += pay`). -/
def creditPlayer (g : Game) (name : String) (pay : Int) : Game :=
  updatePlayer g name (fun p => { p with cash := p.cash + pay })

/-- Property state at a position with the dict-default
`g.properties.get(pos) or PropertyState(pos=pos)`. -/
def getProp (g : Game) (pos : Nat) : PropertyState :=
  (assocGet g.properties pos).getD (defaultProp pos)

/-- Store a property state (dict item assignment `g.properties[pos] = st`). -/
def setProp (g : Game) (pos : Nat) (st : PropertyState) : Game :=
  { g with properties := assocSet g.properties pos st }

/-- Debt queue of a debtor (`g.debts.get(debtor) or []`). -/
def debtsOf (g : Game) (debtor : String) : List DebtEntry :=
  (assocGet g.debts debtor).getD []

/-- Store a debt queue. -/
def setDebts (g : Game) (debtor : String) (l : List DebtEntry) : Game :=
  { g with debts := assocSet g.debts debtor l }

/-- Append a log entry (the model keeps the entry's type tag). -/
def logAdd (g : Game) (tag : String) : Game :=
  { g with log := g.log ++ [tag] }

/-- Python `_debt_total`: sum of `max 0 amount` over the debtor's queue. -/
def debtTotal (g : Game) (debtor : String) : Int :=
  (debtsOf g debtor).foldl (fun acc rec_ => acc + max 0 rec_.amount) 0

/-- Python `_debt_add`: append a debt entry, coalescing with the last entry
when it has the same creditor; logs a debt_add entry. -/
def debtAdd (g : Game) (debtor : String) (creditor : Option String) (amount : Int) : Game :=
  if debtor = "" ∨ amount ≤ 0 then g
  else
    let arr := debtsOf g debtor
    let arr' :=
      match arr.getLast? with
      | some last =>
          if last.creditor = creditor then
            arr.dropLast ++ [{ last with amount := last.amount + amount }]
          else arr ++ [{ creditor := creditor, amount := amount }]
      | none => [{ creditor := creditor, amount := amount }]
    logAdd (setDebts g debtor arr') "debt_add"

/-- Loop body of `_route_inflow`: walk the debt records FIFO, paying
`min(inflow, owed)` per entry, crediting player creditors, and rebuilding
the remaining queue.  Returns (game, remaining inflow, new queue). -/
def routeRecs (g : Game) (inflow : Int) : List DebtEntry → Game × Int × List DebtEntry
  | [] => (g, inflow, [])
  | rec_ :: rest =>
      if inflow ≤ 0 then
        -- keep remaining entries that still carry a positive amount
        (g, inflow, (rec_ :: rest).filter (fun r => 0 < r.amount))
      else
        let owed := max 0 rec_.amount
        if owed ≤ 0 then routeRecs g inflow rest
        else
          let pay := min inflow owed
          if 0 < pay then
            let creditor := rec_.creditor.getD "bank"
            let g1 := logAdd (creditPlayer g creditor pay) "debt_payment"
            let rem := owed - pay
            let res := routeRecs g1 (inflow - pay) rest
            (res.1, res.2.1,
              (if 0 < rem then [{ creditor := rec_.creditor, amount := rem }] else []) ++ res.2.2)
          else
            let res := routeRecs g inflow rest
            (res.1, res.2.1, rec_ :: res.2.2)

/-- Python `_route_inflow`: route an inflow to a receiver, auto-paying the
receiver's outstanding debts FIFO; returns the new game state and the amount
retained by the receiver. -/
def routeInflow (g : Game) (receiver : Option String) (amount : Int) : Game × Int :=
  match receiver with
  | none => (g, amount)
  | some name =>
      let inflow := max 0 amount
      if inflow ≤ 0 then (g, 0)
      else
        let debts := debtsOf g name
        if debts.isEmpty then (g, inflow)
        else
          let res := routeRecs g inflow debts
          (setDebts res.1 name res.2.2, max 0 res.2.1)

/-- Total amount held in a debt queue. -/
def sumDebts (l : List DebtEntry) : Int := (l.map DebtEntry.amount).sum

theorem sumDebts_nil : sumDebts [] = 0 := rfl

theorem sumDebts_cons (e : DebtEntry) (l : List DebtEntry) :
    sumDebts (e :: l) = e.amount + sumDebts l := by
  simp [sumDebts]

theorem sumDebts_append (l1 l2 : List DebtEntry) :
    sumDebts (l1 ++ l2) = sumDebts l1 + sumDebts l2 := by
  simp [sumDebts]

theorem sumDebts_nonneg (l : List DebtEntry) (h : ∀ e ∈ l, 0 < e.amount) :
    0 ≤ sumDebts l := by
  induction l with
  | nil => simp [sumDebts]
  | cons e l ih =>
      have he := h e (by simp)
      have hl := ih (fun x hx => h x (by simp [hx]))
      rw [sumDebts_cons]; omega

/-- Specification-side payment plan, written from the spec's words for
inflow routing: traverse the receiver's debt queue FIFO, paying
`min(remaining_inflow, debt_amount)` to each entry's creditor. -/
def specFifoPlan (a : Int) : List DebtEntry → List (Option String × Int)
  | [] => []
  | e :: rest =>
      (e.creditor, min a e.amount) :: specFifoPlan (a - min a e.amount) rest

/-- Credit one creditor name in a player list (bank names that match no
player credit nobody, so bank-routed amounts disappear). -/
def playersCredit (ps : List Player) (creditor : String) (pay : Int) : List Player :=
  ps.map (fun p => if p.name = creditor then { p with cash := p.cash + pay } else p)

/-- Apply a payment plan to a player list, crediting each creditor in turn. -/
def playersApplyPlan (ps : List Player) : List (Option String × Int) → List Player
  | [] => ps
  | (c, pay) :: rest => playersApplyPlan (playersCredit ps (c.getD "bank") pay) rest

theorem creditPlayer_players (g : Game) (c : String) (pay : Int) :
    (creditPlayer g c pay).players = playersCredit g.players c pay := rfl

theorem playersCredit_zero (ps : List Player) (c : String) :
    playersCredit ps c 0 = ps := by
  induction ps with
  | nil => rfl
  | cons p ps ih =>
      have hp : (if p.name = c then { p with cash := p.cash + 0 } else p) = p := by
        cases p with
        | mk n ca pos ij jt dc jc col am ab => by_cases h : n = c <;> simp [h]
      simp only [playersCredit, List.map_cons] at ih ⊢
      rw [hp, ih]

theorem playersApplyPlan_zero (l : List DebtEntry) :
    ∀ ps : List Player, (∀ e ∈ l, 0 < e.amount) →
      playersApplyPlan ps (specFifoPlan 0 l) = ps := by
  induction l with
  | nil => intro ps _; rfl
  | cons e rest ih =>
      intro ps h
      have he : min (0 : Int) e.amount = 0 := by
        have := h e (by simp); omega
      simp only [specFifoPlan, he, playersApplyPlan, playersCredit_zero, sub_zero]
      exact ih ps (fun x hx => h x (by simp [hx]))

theorem debtsOf_setDebts_same (g : Game) (n : String) (l : List DebtEntry) :
    debtsOf (setDebts g n l) n = l := by
  simp [debtsOf, setDebts, assocGet_assocSet_same]

/-- One-step unfolding of routeRecs in the paying case. -/
theorem routeRecs_cons_pos (g : Game) (A : Int) (e : DebtEntry) (rest : List DebtEntry)
    (hA : 0 < A) (he : 0 < e.amount) :
    routeRecs g A (e :: rest) =
      ((routeRecs (logAdd (creditPlayer g (e.creditor.getD "bank") (min A e.amount))
          "debt_payment") (A - min A e.amount) rest).1,
       (routeRecs (logAdd (creditPlayer g (e.creditor.getD "bank") (min A e.amount))
          "debt_payment") (A - min A e.amount) rest).2.1,
       (if 0 < e.amount - min A e.amount then
          [{ creditor := e.creditor, amount := e.amount - min A e.amount }] else []) ++
       (routeRecs (logAdd (creditPlayer g (e.creditor.getD "bank") (min A e.amount))
          "debt_payment") (A - min A e.amount) rest).2.2) := by
  have h1 : ¬ (A ≤ 0) := by omega
  have h2 : max 0 e.amount = e.amount := by omega
  have h3 : ¬ (e.amount ≤ 0) := by omega
  have h4 : 0 < min A e.amount := by omega
  simp only [routeRecs, h2, if_neg h1, if_neg h3, if_pos h4]

/-- Behaviour of the routeRecs loop on a queue of positive entries:
the players are credited exactly according to the FIFO min-payment plan,
the remaining inflow is what exceeds the total debt, the surviving queue
totals the unpaid residue, and the queue empties when the inflow covers it. -/
theorem routeRecs_spec (l : List DebtEntry) :
    ∀ (g : Game) (A : Int), 0 ≤ A → (∀ e ∈ l, 0 < e.amount) →
    (routeRecs g A l).1.players = playersApplyPlan g.players (specFifoPlan A l)
    ∧ (routeRecs g A l).2.1 = A - min A (sumDebts l)
    ∧ sumDebts (routeRecs g A l).2.2 = sumDebts l - min A (sumDebts l)
    ∧ (∀ e ∈ (routeRecs g A l).2.2, 0 < e.amount)
    ∧ (sumDebts l ≤ A → (routeRecs g A l).2.2 = []) := by
  induction l with
  | nil =>
      intro g A hA _
      refine ⟨rfl, ?_, ?_, ?_, ?_⟩
      · simp only [routeRecs, sumDebts, List.map_nil, List.sum_nil]
        omega
      · simp only [routeRecs, sumDebts, List.map_nil, List.sum_nil]
        omega
      · simp [routeRecs]
      · intro _; simp [routeRecs]
  | cons e rest ih =>
      intro g A hA hpos
      have hepos : 0 < e.amount := hpos e (by simp)
      have hrest : ∀ x ∈ rest, 0 < x.amount := fun x hx => hpos x (by simp [hx])
      have hsum_rest : 0 ≤ sumDebts rest := sumDebts_nonneg rest hrest
      by_cases hA0 : A ≤ 0
      · have hAz : A = 0 := le_antisymm hA0 hA
        subst hAz
        have hfilter : (e :: rest).filter (fun r => 0 < r.amount) = e :: rest := by
          rw [List.filter_eq_self]
          intro a ha; simpa using hpos a ha
        simp only [routeRecs, if_pos (le_refl (0 : Int)), hfilter]
        refine ⟨(playersApplyPlan_zero _ g.players hpos).symm, ?_, ?_, hpos, ?_⟩
        · rw [sumDebts_cons]; omega
        · rw [sumDebts_cons]; omega
        · intro habs
          exfalso
          rw [sumDebts_cons] at habs
          omega
      · have hApos : 0 < A := by omega
        rw [routeRecs_cons_pos g A e rest hApos hepos]
        set pay := min A e.amount with hpay
        set g1 := logAdd (creditPlayer g (e.creditor.getD "bank") pay) "debt_payment" with hg1
        have hA' : 0 ≤ A - pay := by omega
        obtain ⟨ihp, ihrem, ihsum, ihent, ihemp⟩ := ih g1 (A - pay) hA' hrest
        have hg1p : g1.players = playersCredit g.players (e.creditor.getD "bank") pay := rfl
        refine ⟨?_, ?_, ?_, ?_, ?_⟩
        · rw [ihp, hg1p]
          simp only [specFifoPlan, playersApplyPlan]
        · rw [ihrem, sumDebts_cons]
          omega
        · rw [sumDebts_append, ihsum, sumDebts_cons]
          by_cases hrem : 0 < e.amount - pay
          · have hd : ({ creditor := e.creditor, amount := e.amount - pay } : DebtEntry).amount
                = e.amount - pay := rfl
            rw [if_pos hrem, sumDebts_cons, sumDebts_nil, hd]
            omega
          · rw [if_neg hrem, sumDebts_nil]
            omega
        · intro x hx
          rcases List.mem_append.mp hx with hx1 | hx2
          · by_cases hrem : 0 < e.amount - pay
            · rw [if_pos hrem] at hx1
              simp at hx1
              subst hx1
              simpa using hrem
            · rw [if_neg hrem] at hx1
              simp at hx1
          · exact ihent x hx2
        · intro hle
          rw [sumDebts_cons] at hle
          have hpe : pay = e.amount := by omega
          have h1 : ¬ (0 < e.amount - pay) := by omega
          rw [if_neg h1, List.nil_append]
          exact ihemp (by omega)

theorem sumDebts_pos_of_ne_nil (l : List DebtEntry)
    (h : ∀ e ∈ l, 0 < e.amount) (hne : l ≠ []) : 0 < sumDebts l := by
  cases l with
  | nil => exact absurd rfl hne
  | cons e rest =>
      have he := h e (by simp)
      have hr : 0 ≤ sumDebts rest := sumDebts_nonneg rest (fun x hx => h x (by simp [hx]))
      rw [sumDebts_cons]; omega

/-- An empty game shell used to build concrete scenarios. -/
def mkGame (ps : List Player) : Game :=
  { players := ps, currentTurn := 0, properties := [], lastAction := none,
    log := [], rollsLeft := 1, pendingTrades := [], rolledThisTurn := false,
    recurring := [], round := 0, landCounts := [], turns := 0, gameOver := none,
    stocks := [], propertyRentals := [], recentTrades := [], bonds := [],
    bondInvestments := [], turnCounts := [], debts := [] }

/-- A named player with given cash and otherwise default fields. -/
def mkPlayer (name : String) (cash : Int) : Player :=
  { defaultPlayer with name := name, cash := cash }

/-- C2: routing an inflow `A ≥ 0` to a receiver whose debt queue holds
entries with positive amounts totalling `D` pays creditors in FIFO order
with `min(remaining inflow, entry amount)` per entry, crediting each player
creditor's cash (amounts routed to the bank disappear); if `A ≥ D` every
debt entry is cleared and the receiver retains `A − D`, otherwise the total
debt becomes `D − A` and the receiver retains nothing. -/
theorem C2_inflow_routing (g : Game) (name : String) (A : Int)
    (hpos : ∀ e ∈ debtsOf g name, 0 < e.amount) (hA : 0 ≤ A) :
    ((routeInflow g (some name) A).2
        = if sumDebts (debtsOf g name) ≤ A then A - sumDebts (debtsOf g name) else 0)
    ∧ (routeInflow g (some name) A).1.players
        = playersApplyPlan g.players (specFifoPlan A (debtsOf g name))
    ∧ sumDebts (debtsOf (routeInflow g (some name) A).1 name)
        = sumDebts (debtsOf g name) - min A (sumDebts (debtsOf g name))
    ∧ (sumDebts (debtsOf g name) ≤ A → debtsOf (routeInflow g (some name) A).1 name = []) := by
  have hD : 0 ≤ sumDebts (debtsOf g name) := sumDebts_nonneg _ hpos
  have hmax : max 0 A = A := max_eq_right hA
  by_cases hA0 : A ≤ 0
  · have hAz : A = 0 := le_antisymm hA0 hA
    subst hAz
    simp only [routeInflow, hmax, if_pos (le_refl (0 : Int))]
    refine ⟨?_, (playersApplyPlan_zero _ g.players hpos).symm, ?_, ?_⟩
    · split
      · next h => omega
      · rfl
    · omega
    · intro hle
      by_cases hnil : debtsOf g name = []
      · exact hnil
      · exact absurd hle (by have := sumDebts_pos_of_ne_nil _ hpos hnil; omega)
  · by_cases hemp : debtsOf g name = []
    · have hroute : routeInflow g (some name) A = (g, A) := by
        simp [routeInflow, hmax, hA0, hemp]
      rw [hroute, hemp]
      refine ⟨?_, rfl, ?_, fun _ => rfl⟩
      · rw [sumDebts_nil, if_pos hA]
        omega
      · rw [sumDebts_nil]
        omega
    · have hne : (debtsOf g name).isEmpty = false := by
        cases hd : debtsOf g name with
        | nil => exact absurd hd hemp
        | cons a l => rfl
      have hroute : routeInflow g (some name) A =
          (setDebts (routeRecs g A (debtsOf g name)).1 name
            (routeRecs g A (debtsOf g name)).2.2,
           max 0 (routeRecs g A (debtsOf g name)).2.1) := by
        simp [routeInflow, hmax, hA0, hne]
      obtain ⟨ihp, ihrem, ihsum, _, ihemp⟩ := routeRecs_spec (debtsOf g name) g A hA hpos
      rw [hroute]
      refine ⟨?_, ?_, ?_, ?_⟩
      · show max 0 (routeRecs g A (debtsOf g name)).2.1 = _
        rw [ihrem]
        split
        · next h => omega
        · next h => omega
      · show (setDebts (routeRecs g A (debtsOf g name)).1 name
            (routeRecs g A (debtsOf g name)).2.2).players = _
        simpa [setDebts] using ihp
      · show sumDebts (debtsOf (setDebts (routeRecs g A (debtsOf g name)).1 name
            (routeRecs g A (debtsOf g name)).2.2) name) = _
        rw [debtsOf_setDebts_same, ihsum]
      · intro hle
        show debtsOf (setDebts (routeRecs g A (debtsOf g name)).1 name
            (routeRecs g A (debtsOf g name)).2.2) name = []
        rw [debtsOf_setDebts_same]
        exact ihemp hle

/-- Concrete game used by the C2 witness: B owes 10 to A and 5 to the bank. -/
def gC2 : Game :=
  { mkGame [mkPlayer "A" 100, mkPlayer "B" 0] with
    debts := [("B", [{ creditor := some "A", amount := 10 },
                     { creditor := none, amount := 5 }])] }

/-- C2 witness: the routing theorem applied at a concrete input (inflow 12
against total debt 15). -/
theorem C2_inflow_routing_witness :
    (∀ e ∈ debtsOf gC2 "B", 0 < e.amount) ∧ (0 ≤ (12 : Int)) ∧
    (((routeInflow gC2 (some "B") 12).2
        = if sumDebts (debtsOf gC2 "B") ≤ 12 then 12 - sumDebts (debtsOf gC2 "B") else 0)
     ∧ (routeInflow gC2 (some "B") 12).1.players
        = playersApplyPlan gC2.players (specFifoPlan 12 (debtsOf gC2 "B"))
     ∧ sumDebts (debtsOf (routeInflow gC2 (some "B") 12).1 "B")
        = sumDebts (debtsOf gC2 "B") - min 12 (sumDebts (debtsOf gC2 "B"))
     ∧ (sumDebts (debtsOf gC2 "B") ≤ 12 → debtsOf (routeInflow gC2 (some "B") 12).1 "B" = [])) :=
  ⟨by decide, by decide, C2_inflow_routing gC2 "B" 12 (by decide) (by decide)⟩

/-- Board tile record (the source's tile dicts; pos is the enumerate index). -/
structure Tile where
  pos : Nat
  name : String
  ttype : String
  group : Option String
  price : Int
  rent : Int
deriving DecidableEq, Repr

/-- Colored property tile. -/
def propT (pos : Nat) (name : String) (group : String) (price rent : Int) : Tile :=
  ⟨pos, name, "property", some group, price, rent⟩

/-- Railroad tile (price 200). -/
def railT (pos : Nat) (name : String) : Tile :=
  ⟨pos, name, "railroad", some "railroad", 200, 0⟩

/-- Utility tile (price 150). -/
def utilT (pos : Nat) (name : String) : Tile :=
  ⟨pos, name, "utility", some "utility", 150, 0⟩

/-- Non-ownable tile. -/
def specialT (pos : Nat) (name : String) (ttype : String) : Tile :=
  ⟨pos, name, ttype, none, 0, 0⟩

/-- Python `monopoly_tiles`: the immutable 40-tile board. -/
def monopolyTiles : List Tile :=
  [ specialT 0 "𝗦𝗧𝗔𝗥𝗧 ➡️➡️" "go",
    propT 1 "Salvador" "brown" 60 2,
    specialT 2 "Treasure 💰" "chest",
    propT 3 "Rio" "brown" 60 4,
    specialT 4 "Income Tax" "tax",
    railT 5 "Reading Railroad",
    propT 6 "Tel Aviv" "light-blue" 100 6,
    specialT 7 "Chance ❓" "chance",
    propT 8 "Haifa" "light-blue" 100 6,
    propT 9 "Jerusalem" "light-blue" 120 8,
    specialT 10 "Just Visiting / In Prison 🚔" "jail",
    propT 11 "Venice" "pink" 140 10,
    utilT 12 "Electric Company ⚡",
    propT 13 "Milan" "pink" 140 10,
    propT 14 "Rome" "pink" 160 12,
    railT 15 "Pennsylvania Railroad",
    propT 16 "Frankfurt" "orange" 180 14,
    specialT 17 "Treasure 💰" "chest",
    propT 18 "Munich" "orange" 180 14,
    propT 19 "Berlin" "orange" 200 16,
    specialT 20 "Vacation 🏖️" "free",
    propT 21 "Shenzhen" "red" 220 18,
    specialT 22 "Chance ❓" "chance",
    propT 23 "Beijing" "red" 220 18,
    propT 24 "Shanghai" "red" 240 20,
    railT 25 "B. & O. Railroad",
    propT 26 "Lyon" "yellow" 260 22,
    propT 27 "Toulouse" "yellow" 260 22,
    utilT 28 "Water Works 🚰",
    propT 29 "Paris" "yellow" 280 24,
    specialT 30 "Go to Prison 📜" "gotojail",
    propT 31 "Liverpool" "green" 300 26,
    propT 32 "Manchester" "green" 300 26,
    specialT 33 "Treasure 💰" "chest",
    propT 34 "London" "green" 320 28,
    railT 35 "Short Line",
    specialT 36 "Chance ❓" "chance",
    propT 37 "San Francisco" "dark-blue" 350 35,
    specialT 38 "Luxury Tax" "tax",
    propT 39 "New York" "dark-blue" 400 50 ]

/-- Tile at a board position (list indexing `monopoly_tiles()[pos]`). -/
def tileAt (pos : Nat) : Tile := monopolyTiles.getD pos (specialT pos "" "")

/-- Python `RENT_TABLE`: pos -> [base, 1h, 2h, 3h, 4h, hotel]. -/
def rentTable (pos : Nat) : Option (List Int) :=
  match pos with
  | 1 => some [2, 10, 30, 90, 160, 250]
  | 3 => some [4, 20, 60, 180, 320, 450]
  | 6 => some [6, 30, 90, 270, 400, 550]
  | 8 => some [6, 30, 90, 270, 400, 550]
  | 9 => some [8, 40, 100, 300, 450, 600]
  | 11 => some [10, 50, 150, 450, 625, 750]
  | 13 => some [10, 50, 150, 450, 625, 750]
  | 14 => some [12, 60, 180, 500, 700, 900]
  | 16 => some [14, 70, 200, 550, 750, 950]
  | 18 => some [14, 70, 200, 550, 750, 950]
  | 19 => some [16, 80, 220, 600, 800, 1000]
  | 21 => some [18, 90, 250, 700, 875, 1050]
  | 23 => some [18, 90, 250, 700, 875, 1050]
  | 24 => some [20, 100, 300, 750, 925, 1100]
  | 26 => some [22, 110, 330, 800, 975, 1150]
  | 27 => some [22, 110, 330, 800, 975, 1150]
  | 29 => some [24, 120, 360, 850, 1025, 1200]
  | 31 => some [26, 130, 390, 900, 1100, 1275]
  | 32 => some [26, 130, 390, 900, 1100, 1275]
  | 34 => some [28, 150, 450, 1000, 1200, 1400]
  | 37 => some [35, 175, 500, 1100, 1300, 1500]
  | 39 => some [50, 200, 600, 1400, 1700, 2000]
  | _ => none

/-- Python `HOUSE_COST_BY_GROUP` (callers supply the .get default). -/
def houseCostByGroup (group : String) : Option Int :=
  match group with
  | "brown" => some 50
  | "light-blue" => some 50
  | "pink" => some 100
  | "orange" => some 100
  | "red" => some 150
  | "yellow" => some 150
  | "green" => some 200
  | "dark-blue" => some 200
  | _ => none

/-- Python `_group_positions`: positions of the property tiles in a group. -/
def groupPositions (group : String) : List Nat :=
  (monopolyTiles.filter (fun t => t.group = some group ∧ t.ttype = "property")).map Tile.pos

/-- Python `_mortgage_value`: half the tile price (floor). -/
def mortgageValue (pos : Nat) : Int := (tileAt pos).price / 2

/-- Python `_is_monopoly`: all group properties owned by `owner`, none
mortgaged (positions read through the stored dict, no default). -/
def isMonopoly (g : Game) (owner : String) (group : Option String) : Bool :=
  match group with
  | none => false
  | some gr =>
      let positions := groupPositions gr
      if positions.isEmpty then false
      else positions.all (fun p =>
        match assocGet g.properties p with
        | none => false
        | some st => st.owner = some owner ∧ st.mortgaged = false)

/-- Python `_railroads_owned`: unmortgaged railroads owned by `owner`. -/
def railroadsOwned (g : Game) (owner : String) : Nat :=
  ((monopolyTiles.filter (fun t => t.ttype = "railroad")).map Tile.pos).countP
    (fun p => (getProp g p).owner = some owner ∧ (getProp g p).mortgaged = false)

/-- Python `_utilities_owned`: unmortgaged utilities owned by `owner`. -/
def utilitiesOwned (g : Game) (owner : String) : Nat :=
  ((monopolyTiles.filter (fun t => t.ttype = "utility")).map Tile.pos).countP
    (fun p => (getProp g p).owner = some owner ∧ (getProp g p).mortgaged = false)

/-- Lexicographic strictly-less on (Bool, Int) keys with false < true. -/
def keyLt (a b : Bool × Int) : Bool :=
  (a.1 = false ∧ b.1 = true) ∨ (a.1 = b.1 ∧ a.2 < b.2)

/-- Stable descending insertion: place `x` before the first element whose
key is strictly smaller, after all elements with an equal or larger key
(matches Python's stable `sort(key=…, reverse=True)`). -/
def insertByKeyDesc {α : Type} (key : α → Bool × Int) (x : α) : List α → List α
  | [] => [x]
  | y :: ys => if keyLt (key y) (key x) then x :: y :: ys else y :: insertByKeyDesc key x ys

/-- Stable descending sort by key (Python `sort(key=…, reverse=True)`). -/
def sortByKeyDesc {α : Type} (key : α → Bool × Int) (l : List α) : List α :=
  l.foldl (fun acc x => insertByKeyDesc key x acc) []

/-- Mortgage-candidate scan of `_auto_mortgage_for_cash`: owned unmortgaged
properties with no buildings on them and none of the player's own buildings
in their group; records (pos, mortgage value, is_singleton). -/
def autoMortgageCandidates (g : Game) (name : String) : List (Nat × Int × Bool) :=
  (g.properties.filterMap (fun pr =>
    let pos := pr.1
    let st := pr.2
    if st.owner = some name ∧ st.mortgaged = false then
      let tile := tileAt pos
      let canMortgage : Bool := st.houses = 0 ∧ st.hotel = false
      let canMortgage : Bool := canMortgage &&
        (match tile.group with
         | none => true
         | some gr => (groupPositions gr).all (fun p =>
             match assocGet g.properties p with
             | none => true
             | some ps => ¬ (ps.owner = some name ∧ (0 < ps.houses ∨ ps.hotel = true))))
      if canMortgage then
        let mv := mortgageValue pos
        let isSingleton :=
          match tile.group with
          | none => true
          | some gr =>
              let positions := groupPositions gr
              if positions.isEmpty then true
              else ¬ (positions.all (fun p => (getProp g p).owner = some name))
        some (pos, mv, isSingleton)
      else none
    else none))

/-- Mortgage loop of `_auto_mortgage_for_cash`: walk the sorted candidates,
stopping once cash reaches the target; returns (game, cash raised). -/
def autoMortgageLoop (needed : Int) (name : String) :
    Game → Int → List (Nat × Int × Bool) → Game × Int
  | g, raised, [] => (g, raised)
  | g, raised, (pos, mv, _) :: rest =>
      if needed ≤ playerCash g name then (g, raised)
      else
        let st := getProp g pos
        let g1 := setProp g pos { st with mortgaged := true }
        let r := routeInflow g1 (some name) mv
        let g2 := creditPlayer r.1 name r.2
        let g3 := logAdd g2 "auto_mortgage"
        autoMortgageLoop needed name g3 (raised + mv) rest

/-- Python `_auto_mortgage_for_cash`: mortgage eligible properties (sorted
descending by (not is_singleton, mortgage value), stably) until cash meets
the target.  No-op unless the player's auto_mortgage flag is set. -/
def autoMortgageForCash (g : Game) (name : String) (needed : Int) : Game × Int :=
  match findPlayer g name with
  | none => (g, 0)
  | some p =>
      if p.autoMortgage = false then (g, 0)
      else
        let cands := autoMortgageCandidates g name
        let sorted := sortByKeyDesc (fun c => (!c.2.2, c.2.1)) cands
        autoMortgageLoop needed name g 0 sorted

/-- Building count used when ordering sales (hotel counts as 5). -/
def sellOrderCount (st : PropertyState) : Int :=
  if st.hotel then 5 else (st.houses : Int)

/-- Group keys, in first-occurrence order, of the player's properties that
carry buildings (Python dict construction in `_auto_sell_houses_for_cash`;
tiles without a group fall back to the key unknown). -/
def groupsWithBuildings (g : Game) (name : String) : List String :=
  (g.properties.filterMap (fun pr =>
    if pr.2.owner = some name ∧ (0 < pr.2.houses ∨ pr.2.hotel = true) then
      some ((tileAt pr.1).group.getD "unknown")
    else none)).dedup

/-- Member positions (with state) of one building group, in dict order. -/
def groupBuildingProps (g : Game) (name : String) (gr : String) : List (Nat × PropertyState) :=
  g.properties.filter (fun pr =>
    pr.2.owner = some name ∧ (0 < pr.2.houses ∨ pr.2.hotel = true) ∧
    (tileAt pr.1).group.getD "unknown" = gr)

/-- Python's per-group sale in `_auto_sell_houses_for_cash`: sell one
building from the property with the most buildings in the group. -/
def autoSellFromGroup (g : Game) (name : String) (gr : String) : Game × Int × Bool :=
  let props := sortByKeyDesc (fun pr => (false, sellOrderCount pr.2))
    (groupBuildingProps g name gr)
  match props with
  | [] => (g, 0, false)
  | (pos, st) :: _ =>
      let houseCost := (houseCostByGroup gr).getD 50
      if st.hotel then
        let sellValue := houseCost * 5 / 2
        let g1 := setProp g pos { st with hotel := false, houses := 4 }
        let r := routeInflow g1 (some name) sellValue
        let g2 := logAdd (creditPlayer r.1 name r.2) "auto_sell_building"
        (g2, sellValue, true)
      else if 0 < st.houses then
        let sellValue := houseCost / 2
        let g1 := setProp g pos { st with houses := st.houses - 1 }
        let r := routeInflow g1 (some name) sellValue
        let g2 := logAdd (creditPlayer r.1 name r.2) "auto_sell_building"
        (g2, sellValue, true)
      else (g, 0, false)

/-- Whether more cash is still needed (`need_more_cash` closure). -/
def needMoreCash (g : Game) (name : String) (needed : Int) : Bool :=
  playerCash g name < (if 0 < needed then needed else 0)

/-- Inner for-loop over groups: sell one building per group, stopping early
once the cash target is met. -/
def autoSellGroupsPass (needed : Int) (name : String) :
    Game → Int → Bool → List String → Game × Int × Bool
  | g, raised, sold, [] => (g, raised, sold)
  | g, raised, sold, gr :: rest =>
      let r := autoSellFromGroup g name gr
      let sold' := sold || r.2.2
      let g' := r.1
      let raised' := raised + r.2.1
      if r.2.2 ∧ needMoreCash g' name needed = false then (g', raised', sold')
      else autoSellGroupsPass needed name g' raised' sold' rest

/-- Outer while-loop of `_auto_sell_houses_for_cash`, fuelled (the Python
loop terminates because every pass either sells a building or breaks; the
fuel passed by autoSellHousesForCash exceeds the number of sellable
buildings, so the fuel never runs out first). -/
def autoSellLoop (needed : Int) (name : String) : Nat → Game → Int → Game × Int
  | 0, g, raised => (g, raised)
  | fuel + 1, g, raised =>
      if needMoreCash g name needed = false then (g, raised)
      else
        let groups := groupsWithBuildings g name
        if groups.isEmpty then (g, raised)
        else
          let r := autoSellGroupsPass needed name g 0 false groups
          if r.2.2 = false then (r.1, raised + r.2.1)
          else if needMoreCash r.1 name needed = false then (r.1, raised + r.2.1)
          else autoSellLoop needed name fuel r.1 (raised + r.2.1)

/-- Upper bound on the number of building sales available to a player. -/
def totalBuildings (g : Game) (name : String) : Nat :=
  (g.properties.map (fun pr =>
    if pr.2.owner = some name then pr.2.houses + (if pr.2.hotel then 5 else 0) else 0)).sum

/-- Python `_auto_sell_houses_for_cash`.  No-op unless auto_mortgage is on. -/
def autoSellHousesForCash (g : Game) (name : String) (needed : Int) : Game × Int :=
  match findPlayer g name with
  | none => (g, 0)
  | some p =>
      if p.autoMortgage = false then (g, 0)
      else autoSellLoop needed name (totalBuildings g name + 1) g 0

/-- Rental redirection loop inside `_handle_rent`: for each active rental
covering the position, redirect floor(rent × percentage / 100) to the renter
(with inflow routing) and update the rental's bookkeeping fields.
Returns (game, total redirected, updated rental list). -/
def handleRentRentalLoop (pos : Nat) (rent : Int) :
    Game → Int → List Rental → Game × Int × List Rental
  | g, redirected, [] => (g, redirected, [])
  | g, redirected, r :: rest =>
      if pos ∈ r.properties ∧ 0 < r.turnsLeft then
        if ¬ (r.renter = "") ∧ 0 < r.percentage ∧ r.percentage ≤ 100 then
          match findPlayer g r.renter with
          | some _ =>
              let amt := rent * r.percentage / 100
              let rr := routeInflow g (some r.renter) amt
              let g1 := creditPlayer rr.1 r.renter rr.2
              let g2 := logAdd g1 "rental_income"
              let r' := { r with totalReceived := r.totalReceived + amt,
                                 lastPayment := amt, lastPaymentTurn := g.turns }
              let res := handleRentRentalLoop pos rent g2 (redirected + amt) rest
              (res.1, res.2.1, r' :: res.2.2)
          | none =>
              let res := handleRentRentalLoop pos rent g redirected rest
              (res.1, res.2.1, r :: res.2.2)
        else
          let res := handleRentRentalLoop pos rent g redirected rest
          (res.1, res.2.1, r :: res.2.2)
      else
        let res := handleRentRentalLoop pos rent g redirected rest
        (res.1, res.2.1, r :: res.2.2)

/-- Python `_handle_rent`: compute the rent due on a tile, redirect rental
splits, credit the owner the remaining rent in full (with inflow routing),
then charge the payer up to their available cash, booking any shortfall as
a debt to the owner.  Returns (game, rent-was-paid flag). -/
def handleRent (g : Game) (curName : String) (pos : Nat) (lastRoll : Int) : Game × Bool :=
  let tile := tileAt pos
  if ¬ (tile.ttype = "property" ∨ tile.ttype = "railroad" ∨ tile.ttype = "utility") then
    (g, false)
  else
    match assocGet g.properties pos with
    | none => (g, false)
    | some st =>
        match st.owner with
        | none => (g, false)
        | some ownerName =>
            if ownerName = curName then (g, false)
            else if st.mortgaged then (g, false)
            else
              match findPlayer g ownerName with
              | none => (g, false)
              | some _ =>
                  let rent : Int :=
                    if tile.ttype = "property" then
                      let rents := rentTable pos
                      if st.hotel then (rents.getD [0, 0, 0, 0, 0, 0]).getD 5 0
                      else if 0 < st.houses then
                        let idx := max 0 (min 4 (st.houses : Int))
                        (rents.getD [0, 0, 0, 0, 0, 0]).getD idx.toNat 0
                      else
                        let base := (rents.getD [tile.rent]).getD 0 0
                        if isMonopoly g ownerName tile.group then base * 2 else base
                    else if tile.ttype = "railroad" then
                      match railroadsOwned g ownerName with
                      | 1 => 25
                      | 2 => 50
                      | 3 => 100
                      | 4 => 200
                      | _ => 25
                    else
                      let mult : Int := if 2 ≤ utilitiesOwned g ownerName then 10 else 4
                      mult * max 2 (min 12 lastRoll)
                  if rent ≤ 0 then (g, false)
                  else
                    let rl := handleRentRentalLoop pos rent g 0 g.propertyRentals
                    let g1 := { rl.1 with propertyRentals := rl.2.2 }
                    let redirected := rl.2.1
                    let remaining := rent - redirected
                    let g2 :=
                      if 0 < remaining then
                        let rr := routeInflow g1 (some ownerName) remaining
                        creditPlayer rr.1 ownerName rr.2
                      else g1
                    let g3 :=
                      if playerCash g2 curName < rent then
                        let a1 := autoSellHousesForCash g2 curName rent
                        (autoMortgageForCash a1.1 curName rent).1
                      else g2
                    let payNow := min (max 0 (playerCash g3 curName)) rent
                    let g4 := creditPlayer g3 curName (-payNow)
                    let unpaid := rent - payNow
                    let g5 := if 0 < unpaid then debtAdd g4 curName (some ownerName) unpaid else g4
                    let g6 := logAdd g5 "rent"
                    (g6, true)

/-- Python `_stocks_ensure`: look up or default the owner's stock record,
migrating legacy share-count holdings (any value above 1) to percents. -/
def stocksEnsure (g : Game) (owner : String) : Stock :=
  let st := (assocGet g.stocks owner).getD defaultStock
  if st.holdings.any (fun kv => 1 < kv.2) then
    let vals := st.holdings.map Prod.snd
    let base : ℚ := if st.totalShares ≠ 0 then st.totalShares else max 1 vals.sum
    { st with holdings := st.holdings.map (fun kv => (kv.1, max 0 (min 1 (kv.2 / base)))) }
  else st

/-- Python `_record_stock_history_for`: append (or overwrite the same-turn
last point of) the owner's pool history; the history keeps its last 500. -/
def recordStockHistoryFor (g : Game) (owner : String) (overwrite : Bool) : Game :=
  let st := stocksEnsure g owner
  let turn := g.turns
  let val : ℚ := (playerCash g owner : ℚ)
  let hist := st.history
  let sameTurn : Bool :=
    (st.lastHistoryTurn = some turn) ||
      (match hist.getLast? with
       | some pt => pt.1 = turn
       | none => false)
  let hist' :=
    if overwrite ∧ hist ≠ [] ∧ sameTurn then hist.dropLast ++ [(turn, val)]
    else hist ++ [(turn, val)]
  let hist' := hist'.drop (hist'.length - 500)
  let st' := { st with history := hist', lastHistoryTurn := some turn }
  { g with stocks := assocSet g.stocks owner st' }

/-- Python `_record_stock_history`: record a non-overwriting point for every
player at end of turn. -/
def recordStockHistory (g : Game) : Game :=
  (g.players.map Player.name).foldl (fun gg n => recordStockHistoryFor gg n false) g

/-- Rental expiry walk of `_process_rental_turn_expiry`: decrement active
rentals and drop the ones that reach zero, logging each expiry. -/
def rentalExpiryLoop : Game → List Rental → Game × List Rental
  | g, [] => (g, [])
  | g, r :: rest =>
      if 0 < r.turnsLeft then
        let r' := { r with turnsLeft := r.turnsLeft - 1 }
        if r'.turnsLeft ≤ 0 then
          let g1 := logAdd g "rental_expired"
          rentalExpiryLoop g1 rest
        else
          let res := rentalExpiryLoop g rest
          (res.1, r' :: res.2)
      else
        let res := rentalExpiryLoop g rest
        (res.1, r :: res.2)

/-- Python `_process_rental_turn_expiry`. -/
def processRentalTurnExpiry (g : Game) : Game :=
  let r := rentalExpiryLoop g g.propertyRentals
  { r.1 with propertyRentals := r.2 }

/-- Python's most-landed fold in `_check_and_finalize_game`
(strictly-greater comparison over dict order, sentinel -1). -/
def mostLanded (counts : List (Nat × Nat)) : Option Nat × Int :=
  counts.foldl (fun acc kv => if acc.2 < (kv.2 : Int) then (some kv.1, (kv.2 : Int)) else acc)
    (none, -1)

/-- Python `_check_and_finalize_game`: the game ends when at most one player
remains; returns (game, game-over flag). -/
def checkAndFinalizeGame (g : Game) : Game × Bool :=
  if g.gameOver.isSome then (g, true)
  else if g.players.length ≤ 1 then
    let winner := (g.players.head?).map Player.name
    let most := mostLanded g.landCounts
    let go : GameOver := { winner := winner, turns := g.turns, mostPos := most.1, mostCount := max 0 most.2 }
    let g1 := { g with gameOver := some go }
    (logAdd g1 "game_over", true)
  else (g, false)

/-- The current-turn player object `g.players[g.current_turn]`. -/
def currentPlayer (g : Game) : Player :=
  (g.players.get? g.currentTurn).getD defaultPlayer

/-- Success path of the end_turn handler: advance the turn index (bumping
round on wrap to 0), reset the roll state, clear the doubles chain, bump the
actor's turn count and the global turn counter, expire rentals, record stock
history and run the end-of-game check. -/
def endTurnCommit (g1 : Game) (cur : Player) : Game :=
  let prev := g1.currentTurn
  let g := { g1 with currentTurn := (g1.currentTurn + 1) % g1.players.length }
  let g := if g.currentTurn = 0 ∧ prev ≠ 0 then { g with round := g.round + 1 } else g
  let g := { g with rollsLeft := 1, rolledThisTurn := false }
  let g := updatePlayer g cur.name (fun p => { p with doublesCount := 0 })
  let tc := assocSet g.turnCounts cur.name (((assocGet g.turnCounts cur.name).getD 0) + 1)
  let g := { g with turnCounts := tc }
  let g := { g with lastAction := some ⟨"end_turn", []⟩ }
  let g := logAdd g "end_turn"
  let g := { g with turns := g.turns + 1 }
  let g := processRentalTurnExpiry g
  let g := recordStockHistory g
  (checkAndFinalizeGame g).1

/-- Python game_action end_turn handler, including the turn-bound
not_your_turn gate: jailed players get rolls_left normalized to 0 and may
end the turn immediately; otherwise the turn may end only after rolling
with no rolls left; negative cash blocks it; on success endTurnCommit runs.
Returns (game, accepted flag). -/
def endTurnAction (g0 : Game) (actor : String) : Game × Bool :=
  let cur := currentPlayer g0
  if actor ≠ cur.name then
    ({ g0 with lastAction := some ⟨"not_your_turn", []⟩ }, false)
  else
    let g := if cur.inJail ∧ 0 < g0.rollsLeft then { g0 with rollsLeft := 0 } else g0
    let denyReasons :=
      (if g.rolledThisTurn = false ∧ cur.inJail = false then ["no_roll_yet"] else []) ++
      (if 0 < g.rollsLeft ∧ cur.inJail = false then ["rolls_left"] else [])
    if denyReasons ≠ [] then
      ({ g with lastAction := some ⟨"end_turn_denied", denyReasons⟩ }, false)
    else if cur.cash < 0 then
      ({ g with lastAction := some ⟨"end_turn_denied", ["negative_balance"]⟩ }, false)
    else
      (endTurnCommit g cur, true)

/-- The C1 scenario: A owns position 39 with a hotel (unmortgaged); B is the
current player with cash 500, has rolled, has no debts, owns nothing and has
auto-liquidation off.  A's cash starts at 0 so its increase is visible. -/
def gC1 : Game :=
  { mkGame [mkPlayer "A" 0, { mkPlayer "B" 500 with position := 39 }] with
    currentTurn := 1,
    rolledThisTurn := true,
    rollsLeft := 0,
    properties := [(39, { pos := 39, owner := some "A", houses := 0,
                          hotel := true, mortgaged := false })] }

/-- C1 counterexample: in the claimed scenario the code leaves B at cash 0
(not −1500), credits A the full 2000 rent (not 500), and B's subsequent
end_turn succeeds rather than being rejected for negative cash; only the
debt entry {creditor A, amount 1500} matches the claim. -/
theorem C1_rent_hotel_counterexample :
    playerCash (handleRent gC1 "B" 39 7).1 "B" = 0
    ∧ ¬ (playerCash (handleRent gC1 "B" 39 7).1 "B" = -1500)
    ∧ playerCash (handleRent gC1 "B" 39 7).1 "A" - playerCash gC1 "A" = 2000
    ∧ ¬ (playerCash (handleRent gC1 "B" 39 7).1 "A" - playerCash gC1 "A" = 500)
    ∧ debtsOf (handleRent gC1 "B" 39 7).1 "B" = [{ creditor := some "A", amount := 1500 }]
    ∧ (endTurnAction (handleRent gC1 "B" 39 7).1 "B").2 = true := by
  decide

/-- C1 (amended): in the scenario of the claim — A owning position 39 with a
hotel, unmortgaged, and B (cash 500, no debts, no liquidation assets)
landing there owing hotel rent 2000 — rent resolution pays A the full 2000
immediately, charges B only the 500 it can afford (leaving B.cash = 0, never
negative), appends the debt entry {creditor A, amount 1500} to B's queue,
and B's subsequent end_turn is accepted, advancing the turn. -/
theorem C1_rent_hotel :
    (handleRent gC1 "B" 39 7).2 = true
    ∧ playerCash (handleRent gC1 "B" 39 7).1 "B" = 0
    ∧ playerCash (handleRent gC1 "B" 39 7).1 "A" - playerCash gC1 "A" = 2000
    ∧ debtsOf (handleRent gC1 "B" 39 7).1 "B" = [{ creditor := some "A", amount := 1500 }]
    ∧ (endTurnAction (handleRent gC1 "B" 39 7).1 "B").2 = true
    ∧ (endTurnAction (handleRent gC1 "B" 39 7).1 "B").1.currentTurn = 0 := by
  decide

/-- The C3 counterexample game: the current player A is in jail with
rolls_left = 1, has not rolled, and has nonnegative cash. -/
def gC3 : Game :=
  { mkGame [{ mkPlayer "A" 100 with inJail := true, position := 10 },
            mkPlayer "B" 100] with
    rollsLeft := 1, rolledThisTurn := false }

/-- C3 counterexample: a jailed current player whose rolls_left is still 1
(claimed to be rejected) instead has the end_turn accepted — rolls_left is
normalized to 0 and the turn advances to the next player. -/
theorem C3_end_turn_counterexample :
    (currentPlayer gC3).inJail = true
    ∧ gC3.rollsLeft = 1
    ∧ gC3.rolledThisTurn = false
    ∧ 0 ≤ (currentPlayer gC3).cash
    ∧ (endTurnAction gC3 "A").2 = true
    ∧ (endTurnAction gC3 "A").1.currentTurn = 1 := by
  decide

/-- C3 (amended): an end_turn request is accepted exactly when the actor is
the current-turn player, (rolled_this_turn ∨ in_jail) holds, (rolls_left ≤ 0
∨ in_jail) holds — a jailed current player's rolls_left is normalized to 0
rather than blocking the request — and the actor's cash is nonnegative.
Every rejection leaves the turn index unchanged, and a rejection of the
current player carries an end_turn_denied last_action. -/
theorem C3_end_turn_gating (g : Game) (actor : String) :
    ((endTurnAction g actor).2 = true ↔
      (actor = (currentPlayer g).name
       ∧ (g.rolledThisTurn = true ∨ (currentPlayer g).inJail = true)
       ∧ (g.rollsLeft ≤ 0 ∨ (currentPlayer g).inJail = true)
       ∧ 0 ≤ (currentPlayer g).cash))
    ∧ ((endTurnAction g actor).2 = false →
        (endTurnAction g actor).1.currentTurn = g.currentTurn)
    ∧ (actor = (currentPlayer g).name → (endTurnAction g actor).2 = false →
        ((endTurnAction g actor).1.lastAction.map LastAction.typ)
          = some "end_turn_denied") := by
  unfold endTurnAction
  by_cases hact : actor = (currentPlayer g).name <;>
    by_cases hjail : (currentPlayer g).inJail <;>
      by_cases hroll : g.rolledThisTurn <;>
        by_cases hleft : 0 < g.rollsLeft <;>
          by_cases hcash : 0 ≤ (currentPlayer g).cash <;>
            first
            | (have hc2 : ¬ ((currentPlayer g).cash < 0) := not_lt.mpr hcash
               simp only [if_neg hc2]
               simp_all [not_lt, not_le, apply_ite Game.currentTurn])
            | simp_all [not_lt, not_le, apply_ite Game.currentTurn]

/-- Exact ceiling of a tenth (⌈principal / 10⌉, written with Euclidean
division so it evaluates in the kernel), modelling Python
`math.ceil(principal * 0.1)`.  The source computes this in binary floating
point; for every principal that can arise here (half of a board tile price)
the float result coincides with the exact value. -/
def ceilTenth (principal : Int) : Int := -((-principal).ediv 10)

/-- Python `_auto_unmortgage_for_houses`: unmortgage the player's mortgaged
properties in a group, paying principal + 10% while cash allows.  No-op
unless auto_mortgage is set.  Returns (game, cash spent). -/
def autoUnmortgageForHouses (g : Game) (name : String) (group : String) : Game × Int :=
  match findPlayer g name with
  | none => (g, 0)
  | some p =>
      if p.autoMortgage = false ∨ group = "" then (g, 0)
      else
        (groupPositions group).foldl (fun acc pos =>
          let gg := acc.1
          let st := getProp gg pos
          if st.owner = some name ∧ st.mortgaged = true then
            let principal := mortgageValue pos
            let payoff := principal + ceilTenth principal
            if payoff ≤ playerCash gg name then
              let g1 := creditPlayer gg name (-payoff)
              let g2 := setProp g1 pos { st with mortgaged := false }
              (logAdd g2 "auto_unmortgage", acc.2 + payoff)
            else acc
          else acc) (g, 0)

/-- Closure `owns_group` of the property-management handler. -/
def ownsGroup (g : Game) (name : String) (group : Option String) : Bool :=
  match group with
  | none => false
  | some gr => (groupPositions gr).all (fun p => (getProp g p).owner = some name)

/-- Closure `group_mortgaged` of the property-management handler. -/
def groupMortgaged (g : Game) (group : Option String) : Bool :=
  match group with
  | none => false
  | some gr => (groupPositions gr).any (fun p => (getProp g p).mortgaged)

/-- Building count with a hotel worth 5 (the even-build comparison value). -/
def buildingCount (st : PropertyState) : Int :=
  (st.houses : Int) + (if st.hotel then 5 else 0)

/-- Maximum of a list with 0 for the empty list (Python max over the always
nonempty group count lists). -/
def listMax : List Int → Int
  | [] => 0
  | x :: xs => xs.foldl max x

/-- Minimum of a list with 0 for the empty list. -/
def listMin : List Int → Int
  | [] => 0
  | x :: xs => xs.foldl min x

/-- Closure `can_build_even`: the group's building counts with the target
position shifted by delta must stay within max − min ≤ 1 and 0..5.  The
source locates the target through the states' pos fields, which always equal
their dict keys, so the position-keyed shift below is the same test. -/
def canBuildEven (g : Game) (group : Option String) (targetPos : Nat) (delta : Int) : Bool :=
  match group with
  | none => false
  | some gr =>
      let counts := (groupPositions gr).map (fun p =>
        buildingCount (getProp g p) + (if p = targetPos then delta else 0))
      (listMax counts - listMin counts ≤ 1) ∧ counts.all (fun c => 0 ≤ c ∧ c ≤ 5)

/-- Python game_action buy_house handler (current player acts). -/
def buyHouseAction (g0 : Game) (pos : Nat) : Game × Bool :=
  let cur := currentPlayer g0
  let tile := tileAt pos
  let group := tile.group
  let houseCost := (houseCostByGroup (group.getD "")).getD 0
  if (getProp g0 pos).owner ≠ some cur.name then
    ({ g0 with lastAction := some ⟨"buy_house_denied", ["not_owner"]⟩ }, false)
  else
    let g := if group.isSome ∧ groupMortgaged g0 group then
        (autoUnmortgageForHouses g0 cur.name (group.getD "")).1
      else g0
    let st := getProp g pos
    if ¬ (tile.ttype = "property") ∨ group.isNone ∨ ownsGroup g cur.name group = false
        ∨ groupMortgaged g group then
      ({ g with lastAction := some ⟨"buy_house_denied", ["group_or_mortgage"]⟩ }, false)
    else if st.hotel then
      ({ g with lastAction := some ⟨"buy_house_denied", ["has_hotel"]⟩ }, false)
    else if 4 ≤ st.houses then
      ({ g with lastAction := some ⟨"buy_house_denied", ["max_houses"]⟩ }, false)
    else if playerCash g cur.name < houseCost then
      ({ g with lastAction := some ⟨"buy_house_denied", ["insufficient_cash"]⟩ }, false)
    else if canBuildEven g group pos 1 = false then
      ({ g with lastAction := some ⟨"buy_house_denied", ["even_rule"]⟩ }, false)
    else
      let g1 := creditPlayer g cur.name (-houseCost)
      let g2 := setProp g1 pos { st with houses := st.houses + 1 }
      let g3 := { g2 with lastAction := some ⟨"buy_house", []⟩ }
      (logAdd g3 "buy_house", true)

/-- Python game_action sell_house handler (current player acts). -/
def sellHouseAction (g : Game) (pos : Nat) : Game × Bool :=
  let cur := currentPlayer g
  let tile := tileAt pos
  let group := tile.group
  let houseCost := (houseCostByGroup (group.getD "")).getD 0
  let st := getProp g pos
  if st.owner ≠ some cur.name then
    ({ g with lastAction := some ⟨"sell_house_denied", ["not_owner"]⟩ }, false)
  else if st.houses = 0 ∨ st.hotel then
    ({ g with lastAction := some ⟨"sell_house_denied", ["no_houses_or_hotel"]⟩ }, false)
  else if canBuildEven g group pos (-1) = false then
    ({ g with lastAction := some ⟨"sell_house_denied", ["even_rule"]⟩ }, false)
  else
    let g1 := setProp g pos { st with houses := st.houses - 1 }
    let rr := routeInflow g1 (some cur.name) (houseCost / 2)
    let g2 := creditPlayer rr.1 cur.name rr.2
    let g3 := { g2 with lastAction := some ⟨"sell_house", []⟩ }
    (logAdd g3 "sell_house", true)

/-- Python game_action buy_hotel handler (current player acts): only
requires no hotel yet, exactly 4 houses and enough cash — the even-build
rule is not checked here. -/
def buyHotelAction (g : Game) (pos : Nat) : Game × Bool :=
  let cur := currentPlayer g
  let tile := tileAt pos
  let group := tile.group
  let houseCost := (houseCostByGroup (group.getD "")).getD 0
  let st := getProp g pos
  if st.owner ≠ some cur.name then
    ({ g with lastAction := some ⟨"buy_hotel_denied", ["not_owner"]⟩ }, false)
  else if st.hotel ∨ st.houses ≠ 4 ∨ playerCash g cur.name < houseCost then
    ({ g with lastAction := some ⟨"buy_hotel_denied", []⟩ }, false)
  else
    let g1 := creditPlayer g cur.name (-houseCost)
    let g2 := setProp g1 pos { st with houses := 0, hotel := true }
    let g3 := { g2 with lastAction := some ⟨"buy_hotel", []⟩ }
    (logAdd g3 "buy_hotel", true)

/-- Python game_action sell_hotel handler (current player acts). -/
def sellHotelAction (g : Game) (pos : Nat) : Game × Bool :=
  let cur := currentPlayer g
  let tile := tileAt pos
  let group := tile.group
  let houseCost := (houseCostByGroup (group.getD "")).getD 0
  let st := getProp g pos
  if st.owner ≠ some cur.name then
    ({ g with lastAction := some ⟨"sell_hotel_denied", ["not_owner"]⟩ }, false)
  else if st.hotel = false then
    ({ g with lastAction := some ⟨"sell_hotel_denied", []⟩ }, false)
  else
    let g1 := setProp g pos { st with hotel := false, houses := 4 }
    let rr := routeInflow g1 (some cur.name) (houseCost / 2)
    let g2 := creditPlayer rr.1 cur.name rr.2
    let g3 := { g2 with lastAction := some ⟨"sell_hotel", []⟩ }
    (logAdd g3 "sell_hotel", true)

/-- Building counts of a color group in a game state. -/
def groupCounts (g : Game) (gr : String) : List Int :=
  (groupPositions gr).map (fun p => buildingCount (getProp g p))

/-- The even-build bound for one group: spread of building counts ≤ 1. -/
def evenBuildOk (g : Game) (gr : String) : Prop :=
  listMax (groupCounts g gr) - listMin (groupCounts g gr) ≤ 1

theorem getProp_setProp (g : Game) (pos p : Nat) (st : PropertyState) :
    getProp (setProp g pos st) p = if p = pos then st else getProp g p := by
  by_cases h : p = pos
  · subst h; simp [getProp, setProp, assocGet_assocSet_same]
  · simp [getProp, setProp, assocGet_assocSet_other _ _ _ _ h, h]

theorem routeRecs_properties (l : List DebtEntry) :
    ∀ (g : Game) (A : Int), (routeRecs g A l).1.properties = g.properties := by
  induction l with
  | nil => intro g A; rfl
  | cons e rest ih =>
      intro g A
      by_cases h1 : A ≤ 0
      · simp [routeRecs, h1]
      · by_cases h2 : max 0 e.amount ≤ 0
        · simp [routeRecs, h1, h2, ih]
        · by_cases h3 : 0 < min A (max 0 e.amount)
          · simp [routeRecs, h1, h2, h3, ih, logAdd, creditPlayer, updatePlayer]
          · simp [routeRecs, h1, h2, h3, ih, logAdd, creditPlayer, updatePlayer]

theorem routeInflow_properties (g : Game) (r : Option String) (A : Int) :
    (routeInflow g r A).1.properties = g.properties := by
  match r with
  | none => rfl
  | some name =>
      by_cases h1 : max 0 A ≤ 0
      · simp [routeInflow, h1]
      · by_cases h2 : (debtsOf g name).isEmpty
        · simp [routeInflow, h1, h2]
        · simp [routeInflow, h1, h2, setDebts, routeRecs_properties]

theorem groupCounts_eq_of_properties (a b : Game) (gr : String)
    (hp : a.properties = b.properties) : groupCounts a gr = groupCounts b gr := by
  simp [groupCounts, getProp, hp]

theorem groupCounts_setProp (h : Game) (gr : String) (pos : Nat) (st2 : PropertyState)
    (delta : Int) (hbc : buildingCount st2 = buildingCount (getProp h pos) + delta) :
    groupCounts (setProp h pos st2) gr =
      (groupPositions gr).map
        (fun p => buildingCount (getProp h p) + (if p = pos then delta else 0)) := by
  have hfun : ∀ p, buildingCount (getProp (setProp h pos st2) p)
      = buildingCount (getProp h p) + (if p = pos then delta else 0) := by
    intro p
    rw [getProp_setProp]
    by_cases hp : p = pos
    · simp [hp, hbc]
    · simp [hp]
  simp only [groupCounts, hfun]

theorem canBuildEven_bound (h : Game) (gr : String) (pos : Nat) (delta : Int)
    (hc : canBuildEven h (some gr) pos delta = true) :
    listMax ((groupPositions gr).map
        (fun p => buildingCount (getProp h p) + (if p = pos then delta else 0)))
      - listMin ((groupPositions gr).map
        (fun p => buildingCount (getProp h p) + (if p = pos then delta else 0))) ≤ 1 := by
  unfold canBuildEven at hc
  simp only [decide_eq_true_eq] at hc
  exact hc.1

/-- The successful buy_house commit leaves its group inside the even-build
bound: the guard checked exactly the post-state counts. -/
theorem buyHouse_commit_even (h : Game) (gr : String) (pos : Nat) (n : String) (cost : Int)
    (hc : canBuildEven h (some gr) pos 1 = true) :
    evenBuildOk (logAdd { (setProp (creditPlayer h n (-cost)) pos
      { getProp h pos with houses := (getProp h pos).houses + 1 }) with
      lastAction := some ⟨"buy_house", []⟩ } "buy_house") gr := by
  have hbc : buildingCount { getProp h pos with houses := (getProp h pos).houses + 1 }
      = buildingCount (getProp h pos) + 1 := by
    simp [buildingCount]
    ring
  unfold evenBuildOk
  have e1 : groupCounts (logAdd { (setProp (creditPlayer h n (-cost)) pos
      { getProp h pos with houses := (getProp h pos).houses + 1 }) with
      lastAction := some ⟨"buy_house", []⟩ } "buy_house") gr
      = groupCounts (setProp h pos
          { getProp h pos with houses := (getProp h pos).houses + 1 }) gr := rfl
  rw [e1, groupCounts_setProp h gr pos _ 1 hbc]
  exact canBuildEven_bound h gr pos 1 hc

/-- The successful sell_house commit likewise stays inside the bound. -/
theorem sellHouse_commit_even (h : Game) (gr : String) (pos : Nat) (n : String) (refund : Int)
    (hc : canBuildEven h (some gr) pos (-1) = true)
    (hhot : (getProp h pos).hotel = false)
    (hhs : (getProp h pos).houses ≠ 0) :
    evenBuildOk (logAdd { (creditPlayer (routeInflow (setProp h pos
      { getProp h pos with houses := (getProp h pos).houses - 1 }) (some n) refund).1 n
      (routeInflow (setProp h pos
      { getProp h pos with houses := (getProp h pos).houses - 1 }) (some n) refund).2) with
      lastAction := some ⟨"sell_house", []⟩ } "sell_house") gr := by
  have hbc : buildingCount { getProp h pos with houses := (getProp h pos).houses - 1 }
      = buildingCount (getProp h pos) + (-1) := by
    simp [buildingCount, hhot]
    omega
  unfold evenBuildOk
  have e1 : groupCounts (logAdd { (creditPlayer (routeInflow (setProp h pos
      { getProp h pos with houses := (getProp h pos).houses - 1 }) (some n) refund).1 n
      (routeInflow (setProp h pos
      { getProp h pos with houses := (getProp h pos).houses - 1 }) (some n) refund).2) with
      lastAction := some ⟨"sell_house", []⟩ } "sell_house") gr
      = groupCounts (routeInflow (setProp h pos
          { getProp h pos with houses := (getProp h pos).houses - 1 }) (some n) refund).1 gr := rfl
  rw [e1, groupCounts_eq_of_properties _ (setProp h pos
      { getProp h pos with houses := (getProp h pos).houses - 1 }) gr
      (routeInflow_properties _ _ _),
    groupCounts_setProp h gr pos _ (-1) hbc]
  exact canBuildEven_bound h gr pos (-1) hc

/-- The C5 counterexample game: A fully owns the brown group at (4, 3)
houses — a spread of 1, inside the even-build bound — with cash for a
hotel. -/
def gC5 : Game :=
  { mkGame [mkPlayer "A" 100, mkPlayer "B" 100] with
    properties := [(1, { pos := 1, owner := some "A", houses := 4,
                         hotel := false, mortgaged := false }),
                   (3, { pos := 3, owner := some "A", houses := 3,
                         hotel := false, mortgaged := false })] }

/-- C5 counterexample: from the even group state (4, 3), buy_hotel — which
checks only hotel-absence, houses = 4 and cash, never the even rule —
succeeds and produces counts (5, 3), a spread of 2, violating the claimed
invariant preservation. -/
theorem C5_even_build_counterexample :
    evenBuildOk gC5 "brown"
    ∧ (buyHotelAction gC5 1).2 = true
    ∧ ¬ evenBuildOk (buyHotelAction gC5 1).1 "brown"
    ∧ groupCounts (buyHotelAction gC5 1).1 "brown" = [5, 3] := by
  simp only [evenBuildOk]
  decide

/-- C5 (amended): buy_house and sell_house do enforce the even-build bound —
whenever they succeed, the affected color group's building counts (hotel =
5) stay within max − min ≤ 1 — but buy_hotel checks only (no hotel, exactly
4 houses, cash) and can break the bound, so not every building operation
preserves the invariant. -/
theorem C5_even_build (g : Game) (pos : Nat) (gr : String)
    (hgr : (tileAt pos).group = some gr) :
    ((buyHouseAction g pos).2 = true → evenBuildOk (buyHouseAction g pos).1 gr)
    ∧ ((sellHouseAction g pos).2 = true → evenBuildOk (sellHouseAction g pos).1 gr) := by
  constructor
  · intro hs
    simp only [buyHouseAction, hgr] at hs ⊢
    split_ifs at hs ⊢ with h1 h2 h3 h4 h5 h6 h7 h8 h9 h10 h11 h12
    · exact buyHouse_commit_even _ gr pos _ _ (by simpa using h7)
    · exact buyHouse_commit_even _ gr pos _ _ (by simpa using h12)
  · intro hs
    simp only [sellHouseAction, hgr] at hs ⊢
    split_ifs at hs ⊢ with h1 h2 h3
    have hhot : (getProp g pos).hotel = false := by
      rcases not_or.mp h2 with ⟨_, hb⟩
      simpa using hb
    have hhs : (getProp g pos).houses ≠ 0 := (not_or.mp h2).1
    exact sellHouse_commit_even g gr pos _ _ (by simpa using h3) hhot hhs

/-- C5 witness: the amended theorem applied at the concrete brown group. -/
theorem C5_even_build_witness :
    (tileAt 1).group = some "brown"
    ∧ (((buyHouseAction gC5 1).2 = true → evenBuildOk (buyHouseAction gC5 1).1 "brown")
       ∧ ((sellHouseAction gC5 1).2 = true → evenBuildOk (sellHouseAction gC5 1).1 "brown")) :=
  ⟨by decide, C5_even_build gC5 1 "brown" (by decide)⟩

/-- Closure `group_has_buildings` of the mortgage handler: any property in
the group carries buildings (regardless of owner). -/
def groupHasBuildings (g : Game) (group : Option String) : Bool :=
  match group with
  | none => false
  | some gr => (groupPositions gr).any (fun p => 0 < (getProp g p).houses ∨ (getProp g p).hotel)

/-- Python game_action mortgage handler (current player acts): denied for
non-owners, when the property or its group carries buildings, or when
already mortgaged; otherwise the property is mortgaged and half its price is
credited through inflow routing. -/
def mortgageAction (g : Game) (pos : Nat) : Game × Bool :=
  let cur := currentPlayer g
  let tile := tileAt pos
  let st := getProp g pos
  if st.owner ≠ some cur.name then
    ({ g with lastAction := some ⟨"mortgage_denied", ["not_owner"]⟩ }, false)
  else if 0 < st.houses ∨ st.hotel ∨ groupHasBuildings g tile.group then
    ({ g with lastAction := some ⟨"mortgage_denied", ["has_buildings"]⟩ }, false)
  else if st.mortgaged then
    ({ g with lastAction := some ⟨"mortgage_denied", ["already_mortgaged"]⟩ }, false)
  else
    let g1 := setProp g pos { st with mortgaged := true }
    let amt := mortgageValue pos
    let rr := routeInflow g1 (some cur.name) amt
    let g2 := creditPlayer rr.1 cur.name rr.2
    let g3 := { g2 with lastAction := some ⟨"mortgage", []⟩ }
    (logAdd g3 "mortgage", true)

/-- Python game_action unmortgage handler (current player acts): pays back
principal + ceil(10%) when cash suffices. -/
def unmortgageAction (g : Game) (pos : Nat) : Game × Bool :=
  let cur := currentPlayer g
  let st := getProp g pos
  if st.owner ≠ some cur.name then
    ({ g with lastAction := some ⟨"unmortgage_denied", ["not_owner"]⟩ }, false)
  else if st.mortgaged = false then
    ({ g with lastAction := some ⟨"unmortgage_denied", ["not_mortgaged"]⟩ }, false)
  else
    let principal := mortgageValue pos
    let payoff := principal + ceilTenth principal
    if cur.cash < payoff then
      ({ g with lastAction := some ⟨"unmortgage_denied", ["insufficient_cash"]⟩ }, false)
    else
      let g1 := creditPlayer g cur.name (-payoff)
      let g2 := setProp g1 pos { st with mortgaged := false }
      let g3 := { g2 with lastAction := some ⟨"unmortgage", []⟩ }
      (logAdd g3 "unmortgage", true)

theorem routeInflow_no_debts (g : Game) (n : String) (A : Int)
    (hd : debtsOf g n = []) (hA : 0 < A) : routeInflow g (some n) A = (g, A) := by
  have h1 : max 0 A = A := max_eq_right hA.le
  have h2 : ¬ (A ≤ 0) := not_le.mpr hA
  simp [routeInflow, h1, h2, hd]

theorem currentPlayer_updatePlayer (g : Game) (n : String) (f : Player → Player)
    (hlen : g.currentTurn < g.players.length) :
    currentPlayer (updatePlayer g n f)
      = if (currentPlayer g).name = n then f (currentPlayer g) else currentPlayer g := by
  unfold currentPlayer updatePlayer
  have hp : g.players[g.currentTurn]? = some g.players[g.currentTurn] :=
    List.getElem?_eq_getElem hlen
  simp [List.get?_eq_getElem?, List.getElem?_map, hp]

theorem propertyState_eta_unmortgaged (st : PropertyState) (hm : st.mortgaged = false) :
    ({ pos := st.pos, owner := st.owner, houses := st.houses, hotel := st.hotel,
       mortgaged := false } : PropertyState) = st := by
  cases st
  simp_all

/-- C7 (amended): with the additional hypothesis that the owner has no
outstanding debts, mortgaging then unmortgaging a vacant property (no
buildings anywhere in its group) with sufficient cash restores the property
to its exact pre-mortgage state and changes the player's cash by exactly
-ceil((price/2) * 0.1), the 10% mortgage interest. -/
theorem C7_mortgage_roundtrip (g : Game) (pos : Nat)
    (hlen : g.currentTurn < g.players.length)
    (hown : (getProp g pos).owner = some (currentPlayer g).name)
    (hm : (getProp g pos).mortgaged = false)
    (hh : (getProp g pos).houses = 0)
    (hhot : (getProp g pos).hotel = false)
    (hgb : groupHasBuildings g (tileAt pos).group = false)
    (hdebts : debtsOf g (currentPlayer g).name = [])
    (hmv : 0 < mortgageValue pos)
    (hcash : ceilTenth (mortgageValue pos) ≤ (currentPlayer g).cash) :
    (mortgageAction g pos).2 = true
    ∧ (unmortgageAction (mortgageAction g pos).1 pos).2 = true
    ∧ getProp (unmortgageAction (mortgageAction g pos).1 pos).1 pos = getProp g pos
    ∧ (currentPlayer (unmortgageAction (mortgageAction g pos).1 pos).1).cash
        = (currentPlayer g).cash - ceilTenth (mortgageValue pos) := by
  have c1 : ¬ ((getProp g pos).owner ≠ some (currentPlayer g).name) := by simp [hown]
  have c2 : ¬ (0 < (getProp g pos).houses ∨ (getProp g pos).hotel = true
      ∨ groupHasBuildings g (tileAt pos).group = true) := by
    simp [hh, hhot, hgb]
  have c3 : ¬ ((getProp g pos).mortgaged = true) := by simp [hm]
  have hroute : routeInflow (setProp g pos { getProp g pos with mortgaged := true })
      (some (currentPlayer g).name) (mortgageValue pos)
      = (setProp g pos { getProp g pos with mortgaged := true }, mortgageValue pos) :=
    routeInflow_no_debts _ _ _ hdebts hmv
  have e1 : mortgageAction g pos
      = (logAdd { (creditPlayer (setProp g pos { getProp g pos with mortgaged := true })
            (currentPlayer g).name (mortgageValue pos)) with
            lastAction := some ⟨"mortgage", []⟩ } "mortgage", true) := by
    simp only [mortgageAction, if_neg c1, if_neg c2, if_neg c3, hroute]
  set st := getProp g pos with hst
  set n := (currentPlayer g).name with hn
  set mv := mortgageValue pos with hmvd
  set G1 := logAdd { (creditPlayer (setProp g pos { st with mortgaged := true }) n mv) with
      lastAction := some ⟨"mortgage", []⟩ } "mortgage" with hG1
  have f1 : getProp G1 pos = { st with mortgaged := true } := by
    rw [show getProp G1 pos
        = getProp (setProp g pos { st with mortgaged := true }) pos from rfl,
      getProp_setProp]
    simp
  have hlen1 : (setProp g pos { st with mortgaged := true }).currentTurn
      < (setProp g pos { st with mortgaged := true }).players.length := hlen
  have f2 : currentPlayer G1 = { currentPlayer g with cash := (currentPlayer g).cash + mv } := by
    rw [show currentPlayer G1
        = currentPlayer (updatePlayer (setProp g pos { st with mortgaged := true }) n
            (fun p => { p with cash := p.cash + mv })) from rfl,
      currentPlayer_updatePlayer _ _ _ hlen1]
    rw [show currentPlayer (setProp g pos { st with mortgaged := true }) = currentPlayer g from rfl]
    rw [if_pos rfl]
  have c4 : ¬ ((getProp G1 pos).owner ≠ some (currentPlayer G1).name) := by
    simp [f1, f2, ← hn, hown]
  have c5 : ¬ ((getProp G1 pos).mortgaged = false) := by simp [f1]
  have c6 : ¬ ((currentPlayer G1).cash < mortgageValue pos + ceilTenth (mortgageValue pos)) := by
    rw [f2]
    simp only [← hmvd]
    omega
  have e2 : unmortgageAction G1 pos
      = (logAdd { (setProp (creditPlayer G1 (currentPlayer G1).name
            (-(mortgageValue pos + ceilTenth (mortgageValue pos)))) pos
            { getProp G1 pos with mortgaged := false }) with
            lastAction := some ⟨"unmortgage", []⟩ } "unmortgage", true) := by
    simp only [unmortgageAction, if_neg c4, if_neg c5, if_neg c6]
  have hG1len : G1.players.length = g.players.length := by
    rw [show G1.players = g.players.map
        (fun p => if p.name = n then { p with cash := p.cash + mv } else p) from rfl]
    simp
  have hlenG1 : G1.currentTurn < G1.players.length := by
    rw [show G1.currentTurn = g.currentTurn from rfl, hG1len]
    exact hlen
  refine ⟨by rw [e1], ?_, ?_, ?_⟩
  · rw [e1]
    simp only
    rw [e2]
  · rw [e1]
    simp only
    rw [e2]
    simp only
    rw [show getProp (logAdd { (setProp (creditPlayer G1 (currentPlayer G1).name
          (-(mortgageValue pos + ceilTenth (mortgageValue pos)))) pos
          { getProp G1 pos with mortgaged := false }) with
          lastAction := some ⟨"unmortgage", []⟩ } "unmortgage") pos
        = getProp (setProp (creditPlayer G1 (currentPlayer G1).name
          (-(mortgageValue pos + ceilTenth (mortgageValue pos)))) pos
          { getProp G1 pos with mortgaged := false }) pos from rfl,
      getProp_setProp]
    simp only [if_pos rfl, f1]
    exact propertyState_eta_unmortgaged st hm
  · rw [e1]
    simp only
    rw [e2]
    simp only
    rw [show currentPlayer (logAdd { (setProp (creditPlayer G1 (currentPlayer G1).name
          (-(mortgageValue pos + ceilTenth (mortgageValue pos)))) pos
          { getProp G1 pos with mortgaged := false }) with
          lastAction := some ⟨"unmortgage", []⟩ } "unmortgage")
        = currentPlayer (updatePlayer G1 (currentPlayer G1).name
            (fun p => { p with cash := p.cash +
              (-(mortgageValue pos + ceilTenth (mortgageValue pos))) })) from rfl,
      currentPlayer_updatePlayer _ _ _ hlenG1, if_pos rfl, f2]
    simp only [← hmvd]
    ring

/-- The C7 counterexample game: A owns vacant Salvador (pos 1, price 60,
mortgage value 30) and carries an outstanding debt of 10 to B. -/
def gC7 : Game :=
  { mkGame [mkPlayer "A" 100, mkPlayer "B" 0] with
    properties := [(1, { pos := 1, owner := some "A", houses := 0,
                         hotel := false, mortgaged := false })],
    debts := [("A", [{ creditor := some "B", amount := 10 }])] }

/-- C7 counterexample: for a player with an outstanding debt the claim
fails — the mortgage proceeds are routed to the creditor, so the round trip
costs 13 instead of the claimed interest-only 3 (the property state itself
is restored). -/
theorem C7_mortgage_roundtrip_counterexample :
    (mortgageAction gC7 1).2 = true
    ∧ (unmortgageAction (mortgageAction gC7 1).1 1).2 = true
    ∧ getProp (unmortgageAction (mortgageAction gC7 1).1 1).1 1 = getProp gC7 1
    ∧ ceilTenth (mortgageValue 1) = 3
    ∧ playerCash (unmortgageAction (mortgageAction gC7 1).1 1).1 "A" = 100 - 13
    ∧ ¬ (playerCash (unmortgageAction (mortgageAction gC7 1).1 1).1 "A" = 100 - 3) := by
  decide

/-- The C7 witness game: as gC7 but with no debts. -/
def gC7w : Game :=
  { mkGame [mkPlayer "A" 100, mkPlayer "B" 0] with
    properties := [(1, { pos := 1, owner := some "A", houses := 0,
                         hotel := false, mortgaged := false })] }

/-- C7 witness: the amended round-trip theorem applied at a concrete game. -/
theorem C7_mortgage_roundtrip_witness :
    (gC7w.currentTurn < gC7w.players.length
     ∧ (getProp gC7w 1).owner = some (currentPlayer gC7w).name
     ∧ (getProp gC7w 1).mortgaged = false
     ∧ (getProp gC7w 1).houses = 0
     ∧ (getProp gC7w 1).hotel = false
     ∧ groupHasBuildings gC7w (tileAt 1).group = false
     ∧ debtsOf gC7w (currentPlayer gC7w).name = []
     ∧ 0 < mortgageValue 1
     ∧ ceilTenth (mortgageValue 1) ≤ (currentPlayer gC7w).cash)
    ∧ ((mortgageAction gC7w 1).2 = true
       ∧ (unmortgageAction (mortgageAction gC7w 1).1 1).2 = true
       ∧ getProp (unmortgageAction (mortgageAction gC7w 1).1 1).1 1 = getProp gC7w 1
       ∧ (currentPlayer (unmortgageAction (mortgageAction gC7w 1).1 1).1).cash
           = (currentPlayer gC7w).cash - ceilTenth (mortgageValue 1)) :=
  ⟨⟨by decide, by decide, by decide, by decide, by decide, by decide, by decide,
    by decide, by decide⟩,
   C7_mortgage_roundtrip gC7w 1 (by decide) (by decide) (by decide) (by decide)
     (by decide) (by decide) (by decide) (by decide) (by decide)⟩


/-! ### C6: start-of-turn obligations and the roll_dice idempotency gate -/

/-- Python 3 `round` on an exact rational: round half to even. -/
def pyRound (q : ℚ) : Int :=
  let f := q.num.ediv (q.den : Int)
  let frac := q - (f : ℚ)
  if frac < 1/2 then f
  else if (1 : ℚ)/2 < frac then f + 1
  else if f % 2 = 0 then f else f + 1

/-- Shared charge step of `_process_recurring_for` and `_process_bonds_for`
(the two handlers duplicate this code): when both parties exist, the payer
pays `min(max(0,cash), amt)`, the receipt is routed through `_route_inflow`,
any shortfall is booked as a debt, and a log entry is appended. -/
def chargeObligation (g : Game) (payer toName : String) (amt : Int) (tag : String) : Game :=
  match findPlayer g payer, findPlayer g toName with
  | some pay, some _ =>
      let payNow := min (max 0 pay.cash) amt
      let g1 := creditPlayer g payer (-payNow)
      let g2 :=
        if 0 < payNow then
          let rr := routeInflow g1 (some toName) payNow
          creditPlayer rr.1 toName rr.2
        else g1
      let unpaid := amt - payNow
      let g3 := if 0 < unpaid then debtAdd g2 payer (some toName) unpaid else g2
      logAdd g3 tag
  | _, _ => g

/-- Loop of `_process_recurring_for`: charge every obligation whose from
field is the payer (only when the amount is positive and both parties
exist), decrement its turns_left, and rebuild the remaining list. -/
def processRecurringLoop (payer : String) :
    Game → List RecurringPayment → Game × List RecurringPayment
  | g, [] => (g, [])
  | g, r :: rest =>
      if r.from_ ≠ payer then
        let res := processRecurringLoop payer g rest
        (res.1, r :: res.2)
      else
        let g1 := if 0 < r.amount then chargeObligation g payer r.to_ r.amount "recurring_pay"
                  else g
        let left := r.turnsLeft - 1
        if 0 < left then
          let res := processRecurringLoop payer g1 rest
          (res.1, { r with turnsLeft := left } :: res.2)
        else
          processRecurringLoop payer (logAdd g1 "recurring_done") rest

/-- `_process_recurring_for`: charge all of the payer's recurring
obligations and replace the recurring list with the rebuilt remainder. -/
def processRecurringFor (g : Game) (payer : String) : Game :=
  let res := processRecurringLoop payer g g.recurring
  { res.1 with recurring := res.2 }

/-- Default bond settings stored by `_bonds_ensure`. -/
def defaultBonds : BondSettings :=
  { allowBonds := false, ratePercent := 0, periodTurns := 1 }

/-- Coupon amount `round(principal * (rate / 100.0) * max(1, period))`,
computed in exact rational arithmetic with Python's half-even rounding. -/
def bondCoupon (principal : Int) (rate : ℚ) (period : Int) : Int :=
  pyRound ((principal : ℚ) * (rate / 100) * ((max 1 period : Int) : ℚ))

/-- Coupon loop of `_process_bonds_for`: pay a coupon to every investor
holding a positive principal with this owner. -/
def bondCouponLoop (owner : String) (rate : ℚ) (period : Int) :
    Game → List BondInvestment → Game
  | g, [] => g
  | g, inv :: rest =>
      if inv.owner ≠ owner then bondCouponLoop owner rate period g rest
      else if inv.principal ≤ 0 then bondCouponLoop owner rate period g rest
      else
        let coupon := bondCoupon inv.principal rate period
        if coupon ≤ 0 then bondCouponLoop owner rate period g rest
        else bondCouponLoop owner rate period
          (chargeObligation g owner inv.investor coupon "bond_coupon") rest

/-- `_process_bonds_for`: store the owner's bond settings (the `_bonds_ensure`
write-back), return before touching the turn counter when the coupon rate is
not positive, otherwise advance the owner's turn counter and, when the old
count is divisible by the period, pay the coupons. -/
def processBondsFor (g0 : Game) (owner : String) : Game :=
  let st := (assocGet g0.bonds owner).getD defaultBonds
  let g := { g0 with bonds := assocSet g0.bonds owner st }
  let period := if st.periodTurns = 0 then 1 else st.periodTurns
  if st.ratePercent ≤ 0 then g
  else
    let cnt := (assocGet g.turnCounts owner).getD 0
    let g1 := { g with turnCounts := assocSet g.turnCounts owner (cnt + 1) }
    if cnt % (max 1 period) = 0 then
      bondCouponLoop owner st.ratePercent period g1 g1.bondInvestments
    else g1

/-- Outcome of the pre-dice phase of the roll_dice handler. -/
inductive RollPre where
  | noRolls : RollPre
  | denied : RollPre
  | proceed : RollPre
deriving DecidableEq, Repr

/-- `g.rolled_this_turn = True` (set before the dice are generated). -/
def markRolled (g : Game) : Game := { g with rolledThisTurn := true }

/-- The roll_denied last_action with reason negative_after_recurring. -/
def denyRoll (g : Game) : Game :=
  let la : LastAction := { typ := "roll_denied", reasons := ["negative_after_recurring"] }
  { g with lastAction := some la }

/-- Pre-dice phase of the roll_dice handler (lines 1515-1539): the no-rolls
gate, then — only when rolled_this_turn is false — the start-of-turn
bookkeeping (recurring payments, then bond coupons), after which
rolled_this_turn is set to true before any dice are generated; the roll is
denied with reason negative_after_recurring when the bookkeeping leaves the
roller's cash negative.  On proceed, the handler continues to the dice. -/
def rollDicePre (g : Game) : Game × RollPre :=
  let cur := currentPlayer g
  if g.rollsLeft ≤ 0 then
    ({ g with lastAction := some { typ := "no_rolls", reasons := [] } }, RollPre.noRolls)
  else if g.rolledThisTurn = false then
    let g3 := markRolled (processBondsFor (processRecurringFor g cur.name) cur.name)
    if playerCash g3 cur.name < 0 then (denyRoll g3, RollPre.denied)
    else (g3, RollPre.proceed)
  else (g, RollPre.proceed)

theorem creditPlayer_rollsLeft (g : Game) (n : String) (pay : Int) :
    (creditPlayer g n pay).rollsLeft = g.rollsLeft := rfl

theorem logAdd_rollsLeft (g : Game) (tag : String) :
    (logAdd g tag).rollsLeft = g.rollsLeft := rfl

theorem debtAdd_rollsLeft (g : Game) (d : String) (c : Option String) (a : Int) :
    (debtAdd g d c a).rollsLeft = g.rollsLeft := by
  unfold debtAdd
  split <;> rfl

theorem routeRecs_rollsLeft (l : List DebtEntry) :
    ∀ g A, (routeRecs g A l).1.rollsLeft = g.rollsLeft := by
  induction l with
  | nil => intro g A; rfl
  | cons e rest ih =>
      intro g A
      by_cases h1 : A ≤ 0
      · simp [routeRecs, h1]
      · simp only [routeRecs, if_neg h1]
        by_cases h2 : max 0 e.amount ≤ 0
        · simp [h2, ih]
        · simp only [if_neg h2]
          by_cases h3 : 0 < min A (max 0 e.amount)
          · simp [h3, ih, logAdd, creditPlayer, updatePlayer]
          · simp [h3, ih]

theorem routeInflow_rollsLeft (g : Game) (r : Option String) (A : Int) :
    (routeInflow g r A).1.rollsLeft = g.rollsLeft := by
  unfold routeInflow
  cases r with
  | none => rfl
  | some n =>
      by_cases h1 : max 0 A ≤ 0
      · simp [h1]
      · by_cases h2 : (debtsOf g n).isEmpty
        · simp [h1, h2]
        · simp [h1, h2, setDebts, routeRecs_rollsLeft]

theorem chargeObligation_rollsLeft (g : Game) (p t tag : String) (a : Int) :
    (chargeObligation g p t a tag).rollsLeft = g.rollsLeft := by
  unfold chargeObligation
  cases hp : findPlayer g p <;> cases ht : findPlayer g t <;>
    simp [apply_ite Game.rollsLeft, logAdd_rollsLeft, debtAdd_rollsLeft,
      creditPlayer_rollsLeft, routeInflow_rollsLeft]

theorem processRecurringLoop_rollsLeft (payer : String) (l : List RecurringPayment) :
    ∀ g, (processRecurringLoop payer g l).1.rollsLeft = g.rollsLeft := by
  induction l with
  | nil => intro g; rfl
  | cons r rest ih =>
      intro g
      by_cases h1 : r.from_ ≠ payer
      · simp [processRecurringLoop, h1, ih]
      · by_cases h2 : 0 < r.turnsLeft - 1 <;>
          simp [processRecurringLoop, h1, h2, ih, logAdd_rollsLeft,
            apply_ite Game.rollsLeft, chargeObligation_rollsLeft]

theorem processRecurringFor_rollsLeft (g : Game) (p : String) :
    (processRecurringFor g p).rollsLeft = g.rollsLeft := by
  simpa [processRecurringFor] using processRecurringLoop_rollsLeft p g.recurring g

theorem bondCouponLoop_rollsLeft (owner : String) (rate : ℚ) (period : Int)
    (l : List BondInvestment) :
    ∀ g, (bondCouponLoop owner rate period g l).rollsLeft = g.rollsLeft := by
  induction l with
  | nil => intro g; rfl
  | cons inv rest ih =>
      intro g
      by_cases h1 : inv.owner ≠ owner
      · simp [bondCouponLoop, h1, ih]
      · by_cases h2 : inv.principal ≤ 0
        · simp [bondCouponLoop, h1, h2, ih]
        · by_cases h3 : bondCoupon inv.principal rate period ≤ 0 <;>
            simp [bondCouponLoop, h1, h2, h3, ih, chargeObligation_rollsLeft]

theorem processBondsFor_rollsLeft (g : Game) (owner : String) :
    (processBondsFor g owner).rollsLeft = g.rollsLeft := by
  unfold processBondsFor
  dsimp only
  repeat' split
  all_goals simp [bondCouponLoop_rollsLeft]

/-- C6: start-of-turn obligation idempotency.  On a roll_dice request that
finds rolls_left positive and rolled_this_turn false, the pre-dice phase
(1) ends with rolled_this_turn = true, (2) leaves the players, debts,
recurring list and turn counters exactly as one pass of
`_process_recurring_for` followed by `_process_bonds_for` for the current
player produces them, (3) denies the roll exactly when that bookkeeping
leaves the roller's cash negative, tagging the denial
`roll_denied`/`negative_after_recurring`, and otherwise proceeds to the
dice, and (4) an immediately repeated roll_dice request performs no state
change and charges nothing: its pre-dice phase returns the state unchanged
with outcome proceed. -/
theorem C6_start_of_turn_idempotent (g : Game)
    (hroll : 0 < g.rollsLeft) (hfresh : g.rolledThisTurn = false) :
    ((rollDicePre g).1.rolledThisTurn = true)
    ∧ ((rollDicePre g).1.players
        = (processBondsFor (processRecurringFor g (currentPlayer g).name)
            (currentPlayer g).name).players)
    ∧ ((rollDicePre g).1.debts
        = (processBondsFor (processRecurringFor g (currentPlayer g).name)
            (currentPlayer g).name).debts)
    ∧ ((rollDicePre g).1.recurring
        = (processBondsFor (processRecurringFor g (currentPlayer g).name)
            (currentPlayer g).name).recurring)
    ∧ ((rollDicePre g).1.turnCounts
        = (processBondsFor (processRecurringFor g (currentPlayer g).name)
            (currentPlayer g).name).turnCounts)
    ∧ ((rollDicePre g).2 = RollPre.denied
        ↔ playerCash (processBondsFor (processRecurringFor g (currentPlayer g).name)
            (currentPlayer g).name) (currentPlayer g).name < 0)
    ∧ ((rollDicePre g).2 = RollPre.denied →
        (rollDicePre g).1.lastAction
          = some { typ := "roll_denied", reasons := ["negative_after_recurring"] })
    ∧ ((rollDicePre g).2 ≠ RollPre.denied → (rollDicePre g).2 = RollPre.proceed)
    ∧ rollDicePre (rollDicePre g).1 = ((rollDicePre g).1, RollPre.proceed) := by
  have hnr : ¬ g.rollsLeft ≤ 0 := not_le.mpr hroll
  set name := (currentPlayer g).name with hname
  set gb := processBondsFor (processRecurringFor g name) name with hgb
  have hgbroll : gb.rollsLeft = g.rollsLeft := by
    rw [hgb, processBondsFor_rollsLeft, processRecurringFor_rollsLeft]
  have hmain : rollDicePre g =
      (if playerCash gb name < 0 then (denyRoll (markRolled gb), RollPre.denied)
       else (markRolled gb, RollPre.proceed)) := by
    unfold rollDicePre
    dsimp only
    rw [if_neg hnr, hfresh, if_pos rfl]
    rfl
  by_cases hneg : playerCash gb name < 0
  · have hr : rollDicePre g = (denyRoll (markRolled gb), RollPre.denied) := by
      rw [hmain, if_pos hneg]
    refine ⟨by rw [hr]; rfl, by rw [hr]; rfl, by rw [hr]; rfl, by rw [hr]; rfl,
      by rw [hr]; rfl, ⟨fun _ => hneg, fun _ => by rw [hr]⟩,
      fun _ => by rw [hr]; rfl, fun h => absurd (by rw [hr]) h, ?_⟩
    rw [hr]
    show rollDicePre (denyRoll (markRolled gb)) = (denyRoll (markRolled gb), RollPre.proceed)
    unfold rollDicePre
    dsimp only
    rw [if_neg (show ¬ (denyRoll (markRolled gb)).rollsLeft ≤ 0 from by
      show ¬ gb.rollsLeft ≤ 0
      rw [hgbroll]; exact hnr)]
    rw [if_neg (show ¬ (denyRoll (markRolled gb)).rolledThisTurn = false from by
      simp [denyRoll, markRolled])]
  · have hr : rollDicePre g = (markRolled gb, RollPre.proceed) := by
      rw [hmain, if_neg hneg]
    refine ⟨by rw [hr]; rfl, by rw [hr]; rfl, by rw [hr]; rfl, by rw [hr]; rfl,
      by rw [hr]; rfl,
      ⟨fun h => absurd h (by rw [hr]; simp), fun h => absurd h hneg⟩,
      fun h => absurd h (by rw [hr]; simp), fun _ => by rw [hr], ?_⟩
    rw [hr]
    show rollDicePre (markRolled gb) = (markRolled gb, RollPre.proceed)
    unfold rollDicePre
    dsimp only
    rw [if_neg (show ¬ (markRolled gb).rollsLeft ≤ 0 from by
      show ¬ gb.rollsLeft ≤ 0
      rw [hgbroll]; exact hnr)]
    rw [if_neg (show ¬ (markRolled gb).rolledThisTurn = false from by
      simp [markRolled])]

/-- Concrete game for the C6 witness: current player A owes B a recurring
payment of 30 with two turns left; fresh turn with one roll available. -/
def gC6 : Game :=
  { mkGame [mkPlayer "A" 100, mkPlayer "B" 0] with
    recurring := [{ rid := "r1", from_ := "A", to_ := "B", amount := 30, turnsLeft := 2 }] }

/-- C6 witness: the idempotency theorem applied at a concrete game. -/
theorem C6_start_of_turn_idempotent_witness :
    (0 < gC6.rollsLeft) ∧ (gC6.rolledThisTurn = false) ∧
    (((rollDicePre gC6).1.rolledThisTurn = true)
    ∧ ((rollDicePre gC6).1.players
        = (processBondsFor (processRecurringFor gC6 (currentPlayer gC6).name)
            (currentPlayer gC6).name).players)
    ∧ ((rollDicePre gC6).1.debts
        = (processBondsFor (processRecurringFor gC6 (currentPlayer gC6).name)
            (currentPlayer gC6).name).debts)
    ∧ ((rollDicePre gC6).1.recurring
        = (processBondsFor (processRecurringFor gC6 (currentPlayer gC6).name)
            (currentPlayer gC6).name).recurring)
    ∧ ((rollDicePre gC6).1.turnCounts
        = (processBondsFor (processRecurringFor gC6 (currentPlayer gC6).name)
            (currentPlayer gC6).name).turnCounts)
    ∧ ((rollDicePre gC6).2 = RollPre.denied
        ↔ playerCash (processBondsFor (processRecurringFor gC6 (currentPlayer gC6).name)
            (currentPlayer gC6).name) (currentPlayer gC6).name < 0)
    ∧ ((rollDicePre gC6).2 = RollPre.denied →
        (rollDicePre gC6).1.lastAction
          = some { typ := "roll_denied", reasons := ["negative_after_recurring"] })
    ∧ ((rollDicePre gC6).2 ≠ RollPre.denied → (rollDicePre gC6).2 = RollPre.proceed)
    ∧ rollDicePre (rollDicePre gC6).1 = ((rollDicePre gC6).1, RollPre.proceed)) :=
  ⟨by decide, by decide, C6_start_of_turn_idempotent gC6 (by decide) (by decide)⟩

/-! ### C4: accept_trade -/

/-- Jail-card hand-off inside accept_trade: when the giver holds a card,
move one card from giver to receiver. -/
def jailCardXfer (g : Game) (fromN toN : String) : Game :=
  match findPlayer g fromN with
  | some pa =>
      if 0 < pa.jailCards then
        updatePlayer (updatePlayer g fromN (fun p => { p with jailCards := p.jailCards - 1 }))
          toN (fun p => { p with jailCards := p.jailCards + 1 })
      else g
  | none => g

/-- Cash and jail-card section of accept_trade (runs only when both parties
exist): the maker pays give.cash unconditionally (cash may go negative),
the receipt is routed through `_route_inflow`; then symmetrically for
receive.cash; then the two optional jail-card hand-offs. -/
def tradeCashAndCards (g : Game) (offer : TradeOffer) : Game :=
  match findPlayer g offer.from_, findPlayer g offer.to_ with
  | some _, some _ =>
      let g1 := creditPlayer g offer.from_ (-offer.give.cash)
      let r1 := routeInflow g1 (some offer.to_) offer.give.cash
      let g2 := creditPlayer r1.1 offer.to_ r1.2
      let g3 := creditPlayer g2 offer.to_ (-offer.receive.cash)
      let r2 := routeInflow g3 (some offer.from_) offer.receive.cash
      let g4 := creditPlayer r2.1 offer.from_ r2.2
      let g5 := if offer.give.jailCard then jailCardXfer g4 offer.from_ offer.to_ else g4
      if offer.receive.jailCard then jailCardXfer g5 offer.to_ offer.from_ else g5
  | _, _ => g

/-- One per-turn payment term of an accepted trade: skipped unless both
names are nonempty and amount and turns are positive; otherwise a recurring
record is appended (the random rp#### id is abstracted to the tag "rp"). -/
def addPayment (g : Game) (pm : PaymentTerm) : Game :=
  if pm.from_ = "" ∨ pm.to_ = "" ∨ pm.amount ≤ 0 ∨ pm.turns ≤ 0 then g
  else
    let rp : RecurringPayment :=
      { rid := "rp", from_ := pm.from_, to_ := pm.to_, amount := pm.amount,
        turnsLeft := pm.turns }
    logAdd { g with recurring := g.recurring ++ [rp] } "recurring_created"

/-- One rental term of an accepted trade: direction give rents out the
maker's properties to the recipient, any other direction the reverse. -/
def addRental (offer : TradeOffer) (g : Game) (r : RentalTerm) : Game :=
  if r.properties = [] ∨ r.percentage ≤ 0 ∨ r.turns ≤ 0 then g
  else
    let ow := if r.direction = "give" then offer.from_ else offer.to_
    let rn := if r.direction = "give" then offer.to_ else offer.from_
    let rec_ : Rental :=
      { rid := "", renter := rn, owner := ow, properties := r.properties,
        percentage := r.percentage, turnsLeft := r.turns, cashPaid := 0,
        totalReceived := 0, lastPayment := 0, lastPaymentTurn := 0 }
    logAdd { g with propertyRentals := g.propertyRentals ++ [rec_] } "rental_created"

/-- Advanced-terms section of accept_trade: payments, then rentals. -/
def tradeTerms (g : Game) (offer : TradeOffer) : Game :=
  (offer.rentals).foldl (addRental offer) (offer.payments.foldl addPayment g)

/-- The unconditional property-transfer loop of accept_trade: each listed
position's state is fetched (or default-created) and its owner overwritten
with the given name — no check of the current owner. -/
def transferProps (g : Game) (newOwner : String) (ps : List Nat) : Game :=
  ps.foldl (fun h pos => setProp h pos { getProp h pos with owner := some newOwner }) g

/-- Tail of accept_trade: drop the offer from the pending list, set the
trade_accepted last_action, log, and cache the trade id (the recent_trades
dict is summarized by its key list, trimmed to 300 entries). -/
def tradeFinalize (g : Game) (trades : List TradeOffer) (tid : String) : Game :=
  let la : LastAction := { typ := "trade_accepted", reasons := [] }
  let g0 : Game :=
    { g with
      pendingTrades := trades.filter (fun o => o.tid ≠ tid),
      lastAction := some la }
  let g1 := logAdd g0 "trade_accepted"
  let rt := if g1.recentTrades.contains tid then g1.recentTrades else g1.recentTrades ++ [tid]
  { g1 with recentTrades := if 300 < rt.length then rt.drop (rt.length - 300) else rt }

/-- The accept_trade handler (lines 2373-2493): find the offer by id, gate
on the actor being the recipient, then transfer cash, jail cards, advanced
terms, and properties, and finalize.  Returns the new state and whether
the trade was accepted. -/
def acceptTrade (g : Game) (actor : String) (tid : String) : Game × Bool :=
  match g.pendingTrades.find? (fun o => o.tid = tid) with
  | none => ({ g with lastAction := some { typ := "trade_missing", reasons := [] } }, false)
  | some offer =>
      if actor ≠ offer.to_ then
        ({ g with lastAction := some { typ := "trade_accept_denied", reasons := [] } }, false)
      else
        let g3 := tradeTerms (tradeCashAndCards g offer) offer
        let g4 := transferProps g3 offer.to_ offer.give.properties
        let g5 := transferProps g4 offer.from_ offer.receive.properties
        (tradeFinalize g5 g.pendingTrades tid, true)

theorem getProp_tradeFinalize (g : Game) (trades : List TradeOffer) (tid : String) (pos : Nat) :
    getProp (tradeFinalize g trades tid) pos = getProp g pos := rfl

theorem transferProps_not_mem (ps : List Nat) :
    ∀ (g : Game) (own : String) (pos : Nat), pos ∉ ps →
      getProp (transferProps g own ps) pos = getProp g pos := by
  induction ps with
  | nil => intro g own pos _; rfl
  | cons p rest ih =>
      intro g own pos h
      have hrest : pos ∉ rest := fun hh => h (List.mem_cons_of_mem _ hh)
      have hp : ¬ pos = p := fun hh => h (hh ▸ List.mem_cons_self p rest)
      show getProp (transferProps (setProp g p _) own rest) pos = getProp g pos
      rw [ih _ _ _ hrest, getProp_setProp, if_neg hp]

theorem transferProps_mem (ps : List Nat) :
    ∀ (g : Game) (own : String) (pos : Nat), pos ∈ ps →
      (getProp (transferProps g own ps) pos).owner = some own := by
  induction ps with
  | nil => intro g own pos h; exact absurd h (List.not_mem_nil pos)
  | cons p rest ih =>
      intro g own pos hmem
      by_cases hr : pos ∈ rest
      · exact ih _ _ _ hr
      · have hp : pos = p := by
          rcases List.mem_cons.mp hmem with h | h
          · exact h
          · exact absurd h hr
        show (getProp (transferProps (setProp g p _) own rest) pos).owner = some own
        rw [transferProps_not_mem rest _ _ _ hr, getProp_setProp, if_pos hp]

/-- C4: property transfers in accept_trade are NOT re-validated against
current ownership.  On any accepted trade (the offer is found and the actor
is its recipient), every position in receive.properties ends owned by the
offer's maker, and every position in give.properties that is not also
listed in receive.properties ends owned by the recipient — unconditionally,
whatever the positions' owners were at acceptance time. -/
theorem C4_trade_transfer_unconditional (g : Game) (actor tid : String)
    (offer : TradeOffer)
    (hfind : g.pendingTrades.find? (fun o => o.tid = tid) = some offer)
    (hact : actor = offer.to_) :
    ((acceptTrade g actor tid).2 = true)
    ∧ (∀ pos ∈ offer.receive.properties,
        (getProp (acceptTrade g actor tid).1 pos).owner = some offer.from_)
    ∧ (∀ pos ∈ offer.give.properties, pos ∉ offer.receive.properties →
        (getProp (acceptTrade g actor tid).1 pos).owner = some offer.to_) := by
  unfold acceptTrade
  rw [hfind]
  dsimp only
  rw [if_neg (not_not_intro hact)]
  refine ⟨rfl, fun pos hpos => ?_, fun pos hg hr => ?_⟩
  · rw [getProp_tradeFinalize]
    exact transferProps_mem _ _ _ _ hpos
  · rw [getProp_tradeFinalize]
    rw [transferProps_not_mem _ _ _ _ hr]
    exact transferProps_mem _ _ _ _ hg

/-- The trade offer used by the C4 scenario: A offers property 5 (owned by
third player C) to B for nothing. -/
def oC4 : TradeOffer :=
  { tid := "t1", from_ := "A", to_ := "B",
    give := { cash := 0, properties := [5], jailCard := false },
    receive := { cash := 0, properties := [], jailCard := false },
    payments := [], rentals := [] }

/-- Concrete game for the C4 counterexample and witness: position 5 belongs
to C, yet A's pending offer lists it on the give side. -/
def gC4 : Game :=
  { mkGame [mkPlayer "A" 100, mkPlayer "B" 100, mkPlayer "C" 100] with
    properties := [(5, { defaultProp 5 with owner := some "C" })],
    pendingTrades := [oC4] }

/-- C4 counterexample: B accepts A's offer of position 5 although it is
owned by C at acceptance time; the handler reassigns it to B anyway, so the
claimed owned-by-sender re-validation does not exist. -/
theorem C4_trade_transfer_counterexample :
    ((getProp gC4 5).owner = some "C")
    ∧ ((acceptTrade gC4 "B" "t1").2 = true)
    ∧ ((getProp (acceptTrade gC4 "B" "t1").1 5).owner = some "B") := by decide

/-- C4 witness: the unconditional-transfer theorem applied at the concrete
scenario. -/
theorem C4_trade_transfer_unconditional_witness :
    (gC4.pendingTrades.find? (fun o => o.tid = "t1") = some oC4) ∧ ("B" = oC4.to_) ∧
    (((acceptTrade gC4 "B" "t1").2 = true)
    ∧ (∀ pos ∈ oC4.receive.properties,
        (getProp (acceptTrade gC4 "B" "t1").1 pos).owner = some oC4.from_)
    ∧ (∀ pos ∈ oC4.give.properties, pos ∉ oC4.receive.properties →
        (getProp (acceptTrade gC4 "B" "t1").1 pos).owner = some oC4.to_)) :=
  ⟨by decide, by decide, C4_trade_transfer_unconditional gC4 "B" "t1" oC4 (by decide) (by decide)⟩

/-! ### C8: stock invest and redeem -/

/- The Batteries rational operations are irreducible by default, which
blocks whnf evaluation of concrete stock states; restore semireducibility
so that decidable goals over ℚ evaluate. -/
set_option allowUnsafeReducibility true

attribute [local semireducible] Rat.mul Rat.add Rat.sub Rat.inv Rat.div Rat.neg

/-- Python `round(x, 9)` on an exact rational. -/
def round9 (q : ℚ) : ℚ := (pyRound (q * 1000000000) : ℚ) / 1000000000

/-- Python `int(x)`: truncation toward zero. -/
def ratTrunc (q : ℚ) : Int := q.num.tdiv (q.den : Int)

/-- Denial helper: set a typed last_action with the given reason list. -/
def denyAction (g : Game) (typ : String) (reasons : List String) : Game × Bool :=
  let la : LastAction := { typ := typ, reasons := reasons }
  ({ g with lastAction := some la }, false)

/-- Percent rebuild shared by stock_invest and stock_sell: walk the dollar
stakes in order, skip non-positive ones, clamp each stake/pool ratio to
[0,1], drop dust below 1e-6, and round the kept percents to 9 decimals. -/
def buildHold (pn : ℚ) (stakes : List (String × ℚ)) : List (String × ℚ) :=
  stakes.foldl (fun acc kv =>
    if kv.2 ≤ 0 then acc
    else
      let pct := max 0 (min 1 (kv.2 / pn))
      if pct < 1/1000000 then acc
      else acc ++ [(kv.1, round9 pct)]) []

/-- The scale-and-cleanup tail shared by both stock handlers: when the
accumulated percent lies in (0.0001, 1.9999) and exceeds 1, rescale every
percent by 1/total (rounded to 9 decimals); then drop entries that are not
positive. -/
def normalizeHold (newHold : List (String × ℚ)) : List (String × ℚ) :=
  let total := (newHold.map Prod.snd).sum
  let scaled :=
    if 1/10000 < total ∧ total < 19999/10000 ∧ 1 < total then
      newHold.map (fun kv => (kv.1, round9 (kv.2 * (1/total))))
    else newHold
  scaled.filter (fun kv => 0 < kv.2)

/-- The stock_invest handler (lines 1876-1975).  Gates: the owner cannot
invest in themself, investing must be enabled, the amount positive, the
pool and owner-value minimums and the minimum buy respected, and the
investor must afford the amount.  Then the amount moves from investor to
owner through `_route_inflow`, and every holder's percent is rebuilt from
dollar stakes under the new pool P + A.  (Floats are modeled as exact
rationals; the legacy enforce_min_pool fallback key is collapsed into the
two explicit flags.) -/
def stockInvest (g : Game) (owner investor : String) (amount : Int) : Game × Bool :=
  match findPlayer g investor, findPlayer g owner with
  | some invP, some ownP =>
      let st := stocksEnsure g owner
      if investor = owner then denyAction g "stock_invest_denied" ["owner_cannot_invest"]
      else if st.allowInvesting = false then denyAction g "stock_invest_denied" ["disabled"]
      else if amount ≤ 0 then denyAction g "stock_invest_denied" ["invalid_amount"]
      else
        let A := amount
        let P := ownP.cash
        let hold := st.holdings
        let outsideSum := (hold.map Prod.snd).sum
        let ownerPercent := max 0 (1 - outsideSum)
        if st.enforceMinPoolTotal ∧ 0 < st.minPoolTotal ∧ P < st.minPoolTotal then
          denyAction g "stock_invest_denied" ["below_min_pool_total"]
        else if st.enforceMinPoolOwner ∧ 0 < st.minPoolOwner ∧
            ownerPercent * (P : ℚ) < (st.minPoolOwner : ℚ) then
          denyAction g "stock_invest_denied" ["below_min_pool_owner"]
        else if st.enforceMinBuy ∧ 0 < st.minBuy ∧ A < st.minBuy then
          denyAction g "stock_invest_denied" ["below_min"]
        else if invP.cash < A then
          denyAction g "stock_invest_denied" ["insufficient_cash"]
        else
          let g1 := creditPlayer g investor (-A)
          let r := routeInflow g1 (some owner) A
          let g2 := creditPlayer r.1 owner r.2
          let stakes0 := hold.map (fun kv => (kv.1, max 0 kv.2 * (P : ℚ)))
          let stakes := assocSet stakes0 investor ((assocGet stakes0 investor).getD 0 + (A : ℚ))
          let newHold :=
            if (0 : Int) < P + A then normalizeHold (buildHold ((P + A : Int) : ℚ) stakes)
            else []
          let st2 := { st with holdings := newHold }
          let g3 := { g2 with stocks := assocSet g2.stocks owner st2 }
          let la : LastAction := { typ := "stock_invest", reasons := [] }
          let g4 := logAdd { g3 with lastAction := some la } "stock_invest"
          (recordStockHistoryFor g4 owner true, true)
  | _, _ => denyAction g "stock_invest_denied" ["player_missing"]

/-- The shares branch of the stock_sell amount chain (legacy percent-of-100
path). -/
def sellFromShares (shares : Option Int) (e : ℚ) : Int :=
  match shares with
  | some sh => if 0 < sh then ratTrunc (((sh : ℚ) / 100) * e) else 0
  | none => 0

/-- The amount/shares tail of the stock_sell amount chain. -/
def sellFromAmount (amount shares : Option Int) (e : ℚ) : Int :=
  match amount with
  | some a => if 0 < a then a else sellFromShares shares e
  | none => sellFromShares shares e

/-- The redeem amount S of stock_sell before clamping: a positive percent
takes portion*E, else a positive amount is taken literally, else positive
shares are treated as percent-of-100 of E. -/
def sellRequest (percent : Option ℚ) (amount shares : Option Int) (e : ℚ) : Int :=
  match percent with
  | some pc => if 0 < pc then ratTrunc (max 0 (min 1 pc) * e) else sellFromAmount amount shares e
  | none => sellFromAmount amount shares e

/-- The stock_sell handler (lines 1976-2056): the investor's stake
E = percent × pool must be positive, the request is clamped by E and by the
owner's cash, the cash moves owner → investor through `_route_inflow`, and
percents are rebuilt under the reduced pool (holdings are cleared outright
when the pool is exhausted). -/
def stockSell (g : Game) (owner investor : String)
    (percent : Option ℚ) (amount shares : Option Int) : Game × Bool :=
  match findPlayer g investor, findPlayer g owner with
  | some _, some ownP =>
      let st := stocksEnsure g owner
      let hold := st.holdings
      let P := ownP.cash
      let pCur := (assocGet hold investor).getD 0
      let E := pCur * (P : ℚ)
      if P ≤ 0 ∨ E ≤ 0 then denyAction g "stock_sell_denied" ["no_stake_or_pool"]
      else
        let S := max 0 (min (sellRequest percent amount shares E) (min (ratTrunc E) P))
        if S ≤ 0 then denyAction g "stock_sell_denied" ["invalid_amount"]
        else
          let g1 := creditPlayer g owner (-S)
          let r := routeInflow g1 (some investor) S
          let g2 := creditPlayer r.1 investor r.2
          if P - S ≤ 0 then
            let st2 := { st with holdings := [] }
            let g3 := { g2 with stocks := assocSet g2.stocks owner st2 }
            let la : LastAction := { typ := "stock_sell", reasons := [] }
            let g4 := logAdd { g3 with lastAction := some la } "stock_sell"
            (recordStockHistoryFor g4 owner true, true)
          else
            let stakes0 := hold.map (fun kv => (kv.1, max 0 kv.2 * (P : ℚ)))
            let stakes := assocSet stakes0 investor
              (max 0 ((assocGet stakes0 investor).getD 0 - (S : ℚ)))
            let newHold := normalizeHold (buildHold ((P - S : Int) : ℚ) stakes)
            let st2 := { st with holdings := newHold }
            let g3 := { g2 with stocks := assocSet g2.stocks owner st2 }
            let la : LastAction := { typ := "stock_sell", reasons := [] }
            let g4 := logAdd { g3 with lastAction := some la } "stock_sell"
            (recordStockHistoryFor g4 owner true, true)
  | _, _ => denyAction g "stock_sell_denied" ["player_missing"]

/-- Concrete game for C8: owner O with cash 1000 and investing enabled,
investor I with cash 500, no debts, no minimum gates. -/
def gC8 : Game :=
  { mkGame [mkPlayer "O" 1000, mkPlayer "I" 500] with
    stocks := [("O", { defaultStock with allowInvesting := true })] }

/-- C8 counterexample: the cash movements of the claimed scenario are as
stated, but the stored percents are the 9-decimal roundings 0.333333333 and
0.166666666, not the exact fractions 500/1500 and 200/1200 (the second not
even the rounding of 1/6, because the resale stake is computed from the
already-rounded stored percent). -/
theorem C8_stock_roundtrip_counterexample :
    ((stockInvest gC8 "O" "I" 500).2 = true)
    ∧ (assocGet (stocksEnsure (stockInvest gC8 "O" "I" 500).1 "O").holdings "I"
        = some (333333333/1000000000))
    ∧ ¬ (assocGet (stocksEnsure (stockInvest gC8 "O" "I" 500).1 "O").holdings "I"
        = some (500/1500))
    ∧ ¬ (assocGet
          (stocksEnsure
            (stockSell (stockInvest gC8 "O" "I" 500).1 "O" "I" none (some 300) none).1
            "O").holdings "I"
        = some (200/1200)) := by decide

/-- C8: stock invest then redeem on the claimed scenario.  I invests 500
into O's pool: O's cash becomes 1500, I's 0, and I's stored holding is
round(500/1500, 9) = 0.333333333.  I then sells amount 300: the request is
clamped by the stake E = 0.333333333 × 1500 = 499.9999995 and by O's cash,
so S = 300; O's cash becomes 1200, I's 300, and I's stored holding is
round((0.333333333 × 1500 − 300)/1200, 9) = 0.166666666. -/
theorem C8_stock_roundtrip :
    ((stockInvest gC8 "O" "I" 500).2 = true)
    ∧ (playerCash (stockInvest gC8 "O" "I" 500).1 "O" = 1500)
    ∧ (playerCash (stockInvest gC8 "O" "I" 500).1 "I" = 0)
    ∧ (assocGet (stocksEnsure (stockInvest gC8 "O" "I" 500).1 "O").holdings "I"
        = some (333333333/1000000000))
    ∧ ((stockSell (stockInvest gC8 "O" "I" 500).1 "O" "I" none (some 300) none).2 = true)
    ∧ (playerCash
        (stockSell (stockInvest gC8 "O" "I" 500).1 "O" "I" none (some 300) none).1 "O" = 1200)
    ∧ (playerCash
        (stockSell (stockInvest gC8 "O" "I" 500).1 "O" "I" none (some 300) none).1 "I" = 300)
    ∧ (assocGet
        (stocksEnsure
          (stockSell (stockInvest gC8 "O" "I" 500).1 "O" "I" none (some 300) none).1
          "O").holdings "I"
        = some (166666666/1000000000)) := by decide

/-! ### C9: vote_kick -/

/-- Lobby state used by vote_kick during a game.  The sid-to-name session
map is abstracted: the resolved voter name is a parameter.  The pre-game
host instant-kick branch is outside this model (the lobby always carries a
running game here). -/
structure Lobby where
  players : List String
  bots : List String
  kickVotes : List (String × List String)
  kickTarget : Option String
  kickDeadline : Option ℚ
  game : Game
deriving DecidableEq, Repr

/-- The current-turn player's name used by the vote_kick target guard
(None when current_turn is out of range). -/
def currentNameOpt (g : Game) : Option String :=
  if h : g.currentTurn < g.players.length then some (g.players.get ⟨g.currentTurn, h⟩).name
  else none

/-- The target's vote set after adding the voter (Python builds a set; the
model keeps a duplicate-free list in insertion order — only membership and
size are ever used). -/
def kickVotesAfter (l : Lobby) (voter target : String) : List String :=
  let vs := (assocGet l.kickVotes target).getD []
  if voter ∈ vs then vs else vs ++ [voter]

/-- Number of non-bot players in the lobby. -/
def nonBotCount (l : Lobby) : Nat :=
  (l.players.filter (fun p => ¬ p ∈ l.bots)).length

/-- Timer section of vote_kick: a new kick target arms a 300-second
deadline; otherwise two or more unique votes with more than 120 seconds
remaining clamp the deadline to 120 seconds from now. -/
def kickTimer (l1 : Lobby) (target : String) (now : ℚ) (votes : List String) : Lobby :=
  if l1.kickTarget ≠ some target then
    { l1 with kickTarget := some target, kickDeadline := some (now + 300) }
  else if 2 ≤ votes.length ∧ 120 < (l1.kickDeadline.getD 0) - now then
    { l1 with kickDeadline := some (now + 120) }
  else l1

/-- Release every property of the kicked player to the bank and drop the
player from the turn order, renormalizing current_turn. -/
def releaseAndDrop (g : Game) (target : String) : Game :=
  let props := g.properties.map (fun kv =>
    if kv.2.owner = some target then
      (kv.1, { kv.2 with owner := none, houses := 0, hotel := false, mortgaged := false })
    else kv)
  let ps := g.players.filter (fun p => ¬ p.name = target)
  { g with
    properties := props,
    players := ps,
    currentTurn := g.currentTurn % max 1 ps.length }

/-- Removal section of vote_kick: scrub the target from the game (when
present there), remove them from the lobby roster, and clear the kick
bookkeeping. -/
def kickRemove (l2 : Lobby) (target : String) : Lobby :=
  let g1 :=
    if l2.game.players.any (fun p => p.name = target) then releaseAndDrop l2.game target
    else l2.game
  { l2 with
    game := g1,
    players := l2.players.erase target,
    kickVotes := l2.kickVotes.filter (fun kv => ¬ kv.1 = target),
    kickTarget := none,
    kickDeadline := none }

/-- The vote_kick handler, in-game path (lines 1022-1098): guard voter,
target membership and target = current-turn player; record the vote; run
the timer section; and run the removal section exactly when the unique
votes exceed half of the non-bot player count. -/
def voteKick (l : Lobby) (voter target : String) (now : ℚ) : Lobby :=
  if voter = "" ∨ ¬ target ∈ l.players then l
  else if ¬ some target = currentNameOpt l.game then l
  else
    let votes := kickVotesAfter l voter target
    let l2 := kickTimer { l with kickVotes := assocSet l.kickVotes target votes }
      target now votes
    if nonBotCount l / 2 < votes.length then kickRemove l2 target else l2

theorem kickTimer_players (l1 : Lobby) (t : String) (n : ℚ) (v : List String) :
    (kickTimer l1 t n v).players = l1.players := by
  unfold kickTimer
  split
  · rfl
  · split <;> rfl

theorem kickTimer_game (l1 : Lobby) (t : String) (n : ℚ) (v : List String) :
    (kickTimer l1 t n v).game = l1.game := by
  unfold kickTimer
  split
  · rfl
  · split <;> rfl

theorem kickTimer_kickVotes (l1 : Lobby) (t : String) (n : ℚ) (v : List String) :
    (kickTimer l1 t n v).kickVotes = l1.kickVotes := by
  unfold kickTimer
  split
  · rfl
  · split <;> rfl

theorem releaseAndDrop_owner (g : Game) (t : String) :
    ∀ kv ∈ (releaseAndDrop g t).properties, ¬ kv.2.owner = some t := by
  intro kv hkv
  rcases List.mem_map.mp hkv with ⟨kv0, _, hEq⟩
  dsimp only at hEq
  by_cases how : kv0.2.owner = some t
  · rw [if_pos how] at hEq
    rw [← hEq]
    simp
  · rw [if_neg how] at hEq
    rw [← hEq]
    exact how

/-- C9: vote-kick timing and threshold.  Under the handler's guards (named
voter, target present in a duplicate-free lobby roster and equal to the
current-turn player): a vote while the kick target is not yet this player
arms a deadline 300 seconds ahead; a vote that brings the unique-voter
count to at least two while more than 120 seconds remain clamps the
deadline to exactly 120 seconds from now; and the target is removed —
dropped from the lobby roster and the game's turn order with every one of
their properties released to the bank — exactly when the unique-voter
count strictly exceeds half of the non-bot players (otherwise the roster
and game are unchanged and only the recorded votes and timer move). -/
theorem C9_vote_kick_behavior (l : Lobby) (voter target : String) (now : ℚ)
    (hv : ¬ voter = "") (htl : target ∈ l.players) (hnd : l.players.Nodup)
    (hcur : some target = currentNameOpt l.game) :
    ((l.kickTarget ≠ some target ∧ ¬ nonBotCount l / 2 < (kickVotesAfter l voter target).length) →
        (voteKick l voter target now).kickTarget = some target
        ∧ (voteKick l voter target now).kickDeadline = some (now + 300))
    ∧ ((l.kickTarget = some target ∧ 2 ≤ (kickVotesAfter l voter target).length
        ∧ 120 < (l.kickDeadline.getD 0) - now
        ∧ ¬ nonBotCount l / 2 < (kickVotesAfter l voter target).length) →
        (voteKick l voter target now).kickDeadline = some (now + 120))
    ∧ (nonBotCount l / 2 < (kickVotesAfter l voter target).length →
        (¬ target ∈ (voteKick l voter target now).players
         ∧ (voteKick l voter target now).players = l.players.erase target
         ∧ (voteKick l voter target now).game.players
            = l.game.players.filter (fun p => ¬ p.name = target)
         ∧ (∀ kv ∈ (voteKick l voter target now).game.properties, ¬ kv.2.owner = some target)
         ∧ (voteKick l voter target now).kickTarget = none
         ∧ (voteKick l voter target now).kickDeadline = none))
    ∧ (¬ nonBotCount l / 2 < (kickVotesAfter l voter target).length →
        ((voteKick l voter target now).players = l.players
         ∧ (voteKick l voter target now).game = l.game
         ∧ (assocGet (voteKick l voter target now).kickVotes target).getD []
            = kickVotesAfter l voter target)) := by
  have hg1 : ¬ (voter = "" ∨ ¬ target ∈ l.players) := by
    intro h
    rcases h with h | h
    · exact hv h
    · exact h htl
  have hany : (l.game.players.any (fun p => p.name = target)) = true := by
    unfold currentNameOpt at hcur
    split at hcur
    · next h =>
        have hname : (l.game.players.get ⟨l.game.currentTurn, h⟩).name = target := by
          injection hcur with hh
          exact hh.symm
        refine List.any_eq_true.mpr
          ⟨l.game.players.get ⟨l.game.currentTurn, h⟩, List.get_mem _ _ _, ?_⟩
        simpa using hname
    · exact absurd hcur (by simp)
  have hr : voteKick l voter target now =
      (if nonBotCount l / 2 < (kickVotesAfter l voter target).length then
        kickRemove (kickTimer
          { l with kickVotes := assocSet l.kickVotes target (kickVotesAfter l voter target) }
          target now (kickVotesAfter l voter target)) target
      else kickTimer
        { l with kickVotes := assocSet l.kickVotes target (kickVotesAfter l voter target) }
        target now (kickVotesAfter l voter target)) := by
    unfold voteKick
    rw [if_neg hg1, if_neg (not_not_intro hcur)]
  set L1 : Lobby :=
    { l with kickVotes := assocSet l.kickVotes target (kickVotesAfter l voter target) }
    with hL1
  set LT : Lobby := kickTimer L1 target now (kickVotesAfter l voter target) with hLT
  by_cases hth : nonBotCount l / 2 < (kickVotesAfter l voter target).length
  · rw [if_pos hth] at hr
    refine ⟨fun hc => absurd hth hc.2, fun hc => absurd hth hc.2.2.2, fun _ => ?_,
      fun hc => absurd hth hc⟩
    have hgame : (kickRemove LT target).game = releaseAndDrop l.game target := by
      show (if LT.game.players.any (fun p => p.name = target) then releaseAndDrop LT.game target
        else LT.game) = releaseAndDrop l.game target
      rw [hLT, kickTimer_game]
      show (if (l.game.players.any fun p => p.name = target) = true then _ else _) = _
      rw [if_pos hany]
    have hpl : (kickRemove LT target).players = l.players.erase target := by
      show LT.players.erase target = l.players.erase target
      rw [hLT, kickTimer_players]
    refine ⟨?_, by rw [hr, hpl], ?_, ?_, by rw [hr]; rfl, by rw [hr]; rfl⟩
    · rw [hr, hpl]
      intro hmem
      exact absurd ((List.Nodup.mem_erase_iff hnd).mp hmem).1 (fun h => h rfl)
    · rw [hr, hgame]
      rfl
    · rw [hr, hgame]
      exact releaseAndDrop_owner l.game target
  · rw [if_neg hth] at hr
    refine ⟨fun hc => ?_, fun hc => ?_, fun hc => absurd hc hth, fun _ => ?_⟩
    · rw [hr, hLT]
      unfold kickTimer
      rw [if_pos (show L1.kickTarget ≠ some target from hc.1)]
      exact ⟨rfl, rfl⟩
    · rw [hr, hLT]
      unfold kickTimer
      rw [if_neg (show ¬ L1.kickTarget ≠ some target from not_not_intro hc.1)]
      rw [if_pos (show (2 ≤ (kickVotesAfter l voter target).length
        ∧ 120 < (L1.kickDeadline.getD 0) - now) from ⟨hc.2.1, hc.2.2.1⟩)]
    · refine ⟨by rw [hr, hLT, kickTimer_players], by rw [hr, hLT, kickTimer_game], ?_⟩
      rw [hr, hLT, kickTimer_kickVotes]
      show (assocGet (assocSet l.kickVotes target (kickVotesAfter l voter target))
        target).getD [] = kickVotesAfter l voter target
      rw [assocGet_assocSet_same]
      rfl

/-- Concrete lobby for the C9 witness: five human players, a prior vote by
B against current player A with the kick timer armed and 200 seconds
remaining; C casts the second vote at time 0. -/
def lC9 : Lobby :=
  { players := ["A", "B", "C", "D", "E"], bots := [],
    kickVotes := [("A", ["B"])], kickTarget := some "A",
    kickDeadline := some 200,
    game := mkGame [mkPlayer "A" 0, mkPlayer "B" 0, mkPlayer "C" 0,
      mkPlayer "D" 0, mkPlayer "E" 0] }

/-- C9 witness: the vote-kick theorem applied at the concrete lobby. -/
theorem C9_vote_kick_behavior_witness :
    (¬ "C" = "") ∧ ("A" ∈ lC9.players) ∧ lC9.players.Nodup
    ∧ (some "A" = currentNameOpt lC9.game) ∧
    (((lC9.kickTarget ≠ some "A"
        ∧ ¬ nonBotCount lC9 / 2 < (kickVotesAfter lC9 "C" "A").length) →
        (voteKick lC9 "C" "A" 0).kickTarget = some "A"
        ∧ (voteKick lC9 "C" "A" 0).kickDeadline = some (0 + 300))
    ∧ ((lC9.kickTarget = some "A" ∧ 2 ≤ (kickVotesAfter lC9 "C" "A").length
        ∧ 120 < (lC9.kickDeadline.getD 0) - 0
        ∧ ¬ nonBotCount lC9 / 2 < (kickVotesAfter lC9 "C" "A").length) →
        (voteKick lC9 "C" "A" 0).kickDeadline = some (0 + 120))
    ∧ (nonBotCount lC9 / 2 < (kickVotesAfter lC9 "C" "A").length →
        (¬ "A" ∈ (voteKick lC9 "C" "A" 0).players
         ∧ (voteKick lC9 "C" "A" 0).players = lC9.players.erase "A"
         ∧ (voteKick lC9 "C" "A" 0).game.players
            = lC9.game.players.filter (fun p => ¬ p.name = "A")
         ∧ (∀ kv ∈ (voteKick lC9 "C" "A" 0).game.properties, ¬ kv.2.owner = some "A")
         ∧ (voteKick lC9 "C" "A" 0).kickTarget = none
         ∧ (voteKick lC9 "C" "A" 0).kickDeadline = none))
    ∧ (¬ nonBotCount lC9 / 2 < (kickVotesAfter lC9 "C" "A").length →
        ((voteKick lC9 "C" "A" 0).players = lC9.players
         ∧ (voteKick lC9 "C" "A" 0).game = lC9.game
         ∧ (assocGet (voteKick lC9 "C" "A" 0).kickVotes "A").getD []
            = kickVotesAfter lC9 "C" "A"))) :=
  ⟨by decide, by decide, by decide, by decide,
    C9_vote_kick_behavior lC9 "C" "A" 0 (by decide) (by decide) (by decide) (by decide)⟩

/-! ### C10: chance and chest cards -/

/-- Card record (the source's card dicts; absent string fields become "",
absent numeric fields 0). -/
structure Card where
  kind : String
  target : String
  amount : Int
  house : Int
  hotel : Int
  specialRent : String
  text : String
deriving DecidableEq, Repr

/-- Card with every field empty, the base for the deck literals. -/
def baseCard : Card :=
  { kind := "", target := "", amount := 0, house := 0, hotel := 0,
    specialRent := "", text := "" }

/-- The chance deck of `_draw_card` (the drawn card is uniformly random;
the model works with the deck itself). -/
def chanceCards : List Card :=
  [ { baseCard with kind := "advance_to", target := "GO", text := "Advance to GO (Collect $200)" },
    { baseCard with kind := "advance_to", target := "Illinois Avenue", text := "Advance to Illinois Avenue" },
    { baseCard with kind := "advance_to", target := "St. Charles Place", text := "Advance to St. Charles Place" },
    { baseCard with kind := "nearest", target := "railroad", specialRent := "double", text := "Advance to the nearest Railroad (pay double rent)" },
    { baseCard with kind := "nearest", target := "utility", specialRent := "ten_x", text := "Advance to the nearest Utility (pay 10x dice roll)" },
    { baseCard with kind := "goto_jail", text := "Go to Jail (Do not pass GO, do not collect $200)" },
    { baseCard with kind := "collect", amount := 50, text := "Bank pays you dividend of $50" },
    { baseCard with kind := "pay", amount := 15, text := "Pay poor tax of $15" },
    { baseCard with kind := "repairs", house := 25, hotel := 100, text := "Make general repairs: $25 per house, $100 per hotel" },
    { baseCard with kind := "jail_free", text := "Get Out of Jail Free (Chance)" } ]

/-- The community-chest deck of `_draw_card`. -/
def chestCards : List Card :=
  [ { baseCard with kind := "advance_to", target := "GO", text := "Advance to GO (Collect $200)" },
    { baseCard with kind := "goto_jail", text := "Go to Jail (Do not pass GO, do not collect $200)" },
    { baseCard with kind := "collect", amount := 200, text := "You inherit $200" },
    { baseCard with kind := "pay", amount := 50, text := "Doctor's fees $50" },
    { baseCard with kind := "repairs", house := 40, hotel := 115, text := "Street repairs: $40 per house, $115 per hotel" },
    { baseCard with kind := "jail_free", text := "Get Out of Jail Free (Community Chest)" } ]

/-- Python `_tile_pos_by_name`: position of the first board tile with the
given name, None when no tile matches. -/
def tilePosByName (name : String) : Option Nat :=
  (monopolyTiles.find? (fun t => t.name = name)).map Tile.pos

/-- Python `_record_land`: bump the landing counter of a position. -/
def recordLand (g : Game) (pos : Nat) : Game :=
  { g with landCounts := assocSet g.landCounts pos ((assocGet g.landCounts pos).getD 0 + 1) }

/-- Nearest tile of a type strictly ahead of start, wrapping to the
board-minimum when none is ahead (`nearest_pos` inside `_apply_card`). -/
def nearestPos (t : String) (start : Nat) : Option Nat :=
  let candidates := (monopolyTiles.filter (fun ti => ti.ttype = t)).map Tile.pos
  match candidates with
  | [] => none
  | c :: cs =>
      match (c :: cs).filter (fun p => start < p) with
      | a :: rest => some (rest.foldl min a)
      | [] => some (cs.foldl min c)

/-- Special double railroad rent of the chance `nearest` card: pay twice
the railroad rent (by owner's railroad count) at the landing position, with
partial payment booked as debt. -/
def doubleRRRent (g : Game) (curName : String) (pos : Nat) : Game :=
  let st := assocGet g.properties pos
  let owner := (st.map PropertyState.owner).getD none
  let mort := (st.map PropertyState.mortgaged).getD false
  match owner with
  | some ow =>
      if ¬ ow = "" ∧ ¬ ow = curName ∧ ¬ mort then
        let count := railroadsOwned g ow
        let base : Int :=
          if count = 1 then 25 else if count = 2 then 50
          else if count = 3 then 100 else if count = 4 then 200 else 25
        let rent := base * 2
        let cur := (findPlayer g curName).getD defaultPlayer
        let payNow := min (max 0 cur.cash) rent
        let g1 := creditPlayer g curName (-payNow)
        let g2 :=
          match findPlayer g1 ow with
          | some _ =>
              if 0 < payNow then
                let r := routeInflow g1 (some ow) payNow
                creditPlayer r.1 ow r.2
              else g1
          | none => g1
        let g3 := if 0 < rent - payNow then debtAdd g2 curName (some ow) (rent - payNow) else g2
        logAdd g3 "rent"
      else g
  | none => g

/-- Special ten-times-roll utility rent of the chance `nearest` card. -/
def tenXUtilityRent (g : Game) (curName : String) (pos : Nat) (lastRoll : Int) : Game :=
  let st := assocGet g.properties pos
  let owner := (st.map PropertyState.owner).getD none
  let mort := (st.map PropertyState.mortgaged).getD false
  match owner with
  | some ow =>
      if ¬ ow = "" ∧ ¬ ow = curName ∧ ¬ mort then
        let rent := 10 * max 2 (min 12 lastRoll)
        let cur := (findPlayer g curName).getD defaultPlayer
        let payNow := min (max 0 cur.cash) rent
        let g1 := creditPlayer g curName (-payNow)
        let g2 :=
          match findPlayer g1 ow with
          | some _ =>
              if 0 < payNow then
                let r := routeInflow g1 (some ow) payNow
                creditPlayer r.1 ow r.2
              else g1
          | none => g1
        let g3 := if 0 < rent - payNow then debtAdd g2 curName (some ow) (rent - payNow) else g2
        logAdd g3 "rent"
      else g
  | none => g

/-- Python `_apply_card` (lines 3325-3463): resolve a drawn card against
the current player, identified by name. -/
def applyCard (g : Game) (curName : String) (card : Card) (lastRoll : Int) : Game :=
  if card.kind = "jail_free" then
    logAdd (updatePlayer g curName (fun p => { p with jailCards := p.jailCards + 1 })) "card"
  else if card.kind = "goto_jail" then
    logAdd (updatePlayer g curName
      (fun p => { p with position := 10, inJail := true, jailTurns := 0 })) "card"
  else if card.kind = "advance_to" then
    if card.target = "GO" then
      let g1 := updatePlayer g curName (fun p => { p with position := 0 })
      let r := routeInflow g1 (some curName) 200
      let g2 := creditPlayer r.1 curName r.2
      recordLand (logAdd g2 "card") 0
    else
      match tilePosByName card.target with
      | none => g
      | some pos =>
          let cur := (findPlayer g curName).getD defaultPlayer
          let g1 :=
            if pos < cur.position then
              let r := routeInflow g (some curName) 200
              logAdd (creditPlayer r.1 curName r.2) "pass_go"
            else g
          let g2 := updatePlayer g1 curName (fun p => { p with position := pos })
          recordLand (logAdd g2 "card") pos
  else if card.kind = "collect" then
    let r := routeInflow g (some curName) card.amount
    logAdd (creditPlayer r.1 curName r.2) "card"
  else if card.kind = "pay" then
    let cur := (findPlayer g curName).getD defaultPlayer
    let payNow := min (max 0 cur.cash) card.amount
    let g1 := creditPlayer g curName (-payNow)
    let g2 := if 0 < card.amount - payNow then
        debtAdd g1 curName (some "bank") (card.amount - payNow)
      else g1
    logAdd g2 "card"
  else if card.kind = "repairs" then
    let cur := (findPlayer g curName).getD defaultPlayer
    let total := g.properties.foldl (fun acc kv =>
      if kv.2.owner = some curName ∧ kv.2.mortgaged = false then
        acc + card.house * max 0 kv.2.houses + card.hotel * (if kv.2.hotel then 1 else 0)
      else acc) 0
    if 0 < total then
      let payNow := min (max 0 cur.cash) total
      let g1 := creditPlayer g curName (-payNow)
      let g2 := if 0 < total - payNow then debtAdd g1 curName (some "bank") (total - payNow)
        else g1
      logAdd g2 "card"
    else logAdd g "card"
  else if card.kind = "nearest" then
    let cur := (findPlayer g curName).getD defaultPlayer
    let nt := if card.target = "railroad" then "railroad" else "utility"
    match nearestPos nt cur.position with
    | none => g
    | some np =>
        let g1 :=
          if np ≤ cur.position then
            let r := routeInflow g (some curName) 200
            logAdd (creditPlayer r.1 curName r.2) "pass_go"
          else g
        let g2 := updatePlayer g1 curName (fun p => { p with position := np })
        let g3 := recordLand (logAdd g2 "card") np
        let g4 := if card.specialRent = "double" ∧ card.target = "railroad" then
            doubleRRRent g3 curName np
          else g3
        if card.specialRent = "ten_x" ∧ card.target = "utility" then
          tenXUtilityRent g4 curName np lastRoll
        else g4
  else g

/-- The two dead chance cards. -/
def illinoisCard : Card :=
  { baseCard with
    kind := "advance_to",
    target := "Illinois Avenue",
    text := "Advance to Illinois Avenue" }

/-- The second dead chance card. -/
def stCharlesCard : Card :=
  { baseCard with
    kind := "advance_to",
    target := "St. Charles Place",
    text := "Advance to St. Charles Place" }

/-- C10: dead chance cards.  The chance deck holds advance_to cards for
"Illinois Avenue" and "St. Charles Place", no board tile carries either
name, and applying either card to ANY game state is the identity: no
movement, no GO credit, no log entry. -/
theorem C10_dead_chance_cards :
    illinoisCard ∈ chanceCards
    ∧ stCharlesCard ∈ chanceCards
    ∧ illinoisCard.kind = "advance_to"
    ∧ stCharlesCard.kind = "advance_to"
    ∧ tilePosByName illinoisCard.target = none
    ∧ tilePosByName stCharlesCard.target = none
    ∧ (∀ (g : Game) (curName : String) (lastRoll : Int),
        applyCard g curName illinoisCard lastRoll = g
        ∧ applyCard g curName stCharlesCard lastRoll = g) := by
  refine ⟨by decide, by decide, rfl, rfl, by decide, by decide, ?_⟩
  intro g curName lastRoll
  constructor
  · unfold applyCard
    rw [if_neg (show ¬ illinoisCard.kind = "jail_free" by decide)]
    rw [if_neg (show ¬ illinoisCard.kind = "goto_jail" by decide)]
    rw [if_pos (show illinoisCard.kind = "advance_to" from rfl)]
    rw [if_neg (show ¬ illinoisCard.target = "GO" by decide)]
    rw [show tilePosByName illinoisCard.target = none from by decide]
  · unfold applyCard
    rw [if_neg (show ¬ stCharlesCard.kind = "jail_free" by decide)]
    rw [if_neg (show ¬ stCharlesCard.kind = "goto_jail" by decide)]
    rw [if_pos (show stCharlesCard.kind = "advance_to" from rfl)]
    rw [if_neg (show ¬ stCharlesCard.target = "GO" by decide)]
    rw [show tilePosByName stCharlesCard.target = none from by decide]

end Monopoly
